import Mathlib

/-!
Verification of the checkb Executor (src/checkb/executor.py) against its
natural-language specification.  The Python code is shallowly embedded:
pure fragments become Lean functions, the stateful orchestration loop
becomes an explicit interpreter over small script/state types, and
exceptional control flow is made explicit through result inductives.
-/

set_option linter.unusedVariables false
set_option maxRecDepth 8192

namespace Checkb

/-! ## Signal-handler state (executor.py `_run_playbook`, lines 418-446)

Python's `signal.signal(signum, handler)` mutates process-global state.
We model the two handlers the Executor touches (SIGINT, SIGTERM) as a
two-field record.  `Handler.interruptHandler` stands for the bound method
`self._interrupt_handler`; `Handler.custom n` stands for any other
pre-existing handler a caller may have installed. -/

inductive Handler
  | dfl
  | ign
  | interruptHandler
  | custom (id : Nat)
  deriving DecidableEq, Repr

structure SigState where
  sigint : Handler
  sigterm : Handler
  deriving DecidableEq, Repr

/-- What the failsafe `ansible-playbook --tags failsafe` invocation does
(`_run_playbook`, lines 434-441).  Its errors are swallowed by the code. -/
inductive FailsafeResult
  | ok
  | procErr
  | interrupt
  deriving DecidableEq, Repr

/-- Behaviour of the `os_utils.popen_rt` invocation inside `_run_playbook`:
it returns output, raises `subprocess.CalledProcessError`, or raises
`exc.CheckbInterruptError` (via the installed interrupt handler). -/
inductive RunScenario
  | ok (output : String)
  | procErr (returncode : Int)
  | interrupt (sig : Nat) (failsafe : FailsafeResult)
  deriving DecidableEq, Repr

/-- How `_run_playbook` terminates: normal return, `exc.CheckbError`
(wrapping a `CalledProcessError`), or a re-raised
`exc.CheckbInterruptError`. -/
inductive RunOutcome
  | ok (output : String)
  | errCheckb
  | errInterrupt (sig : Nat)
  deriving DecidableEq, Repr

/-- Result of `_run_playbook`: its outcome, the process-global signal
handlers after the call, and the list of `popen_rt` invocations made
(`false` = the ordinary command, `true` = the failsafe command with
`--tags failsafe` appended). -/
structure RunResult where
  outcome : RunOutcome
  handlers : SigState
  invocations : List Bool
  deriving DecidableEq, Repr

/-- Shallow embedding of `Executor._run_playbook` (executor.py 377-446),
restricted to its effect on signal-handler state and its control flow.
`pre` is the signal state in effect immediately before the call.

Source structure:
```
try:
    signal.signal(signal.SIGINT, self._interrupt_handler)
    signal.signal(signal.SIGTERM, self._interrupt_handler)
    output, _ = os_utils.popen_rt(cmd, cwd=ansible_dir)
    return output
except subprocess.CalledProcessError as e:
    raise exc.CheckbError(e)
except exc.CheckbInterruptError as e:
    try:
        os_utils.popen_rt(cmd_failsafe, cwd=ansible_dir)
    except (subprocess.CalledProcessError, exc.CheckbInterruptError):
        ...  # logged and ignored
    raise e
finally:
    signal.signal(signal.SIGINT, signal.SIG_DFL)
    signal.signal(signal.SIGTERM, signal.SIG_DFL)
```
-/
def run_playbook (pre : SigState) (sc : RunScenario) : RunResult :=
  -- handlers installed at the top of the try block
  let during : SigState := { sigint := .interruptHandler, sigterm := .interruptHandler }
  -- body of try/except: outcome and popen_rt invocations
  let body : RunOutcome × List Bool :=
    match sc with
    | .ok output => (.ok output, [false])
    | .procErr _ => (.errCheckb, [false])
    | .interrupt sig fs =>
        -- the failsafe invocation runs once; any error from it (`fs`)
        -- is caught, logged and discarded; the original interrupt is
        -- re-raised regardless of `fs`
        (.errInterrupt sig, [false, true])
  -- finally block: reset both handlers to SIG_DFL
  let post : SigState := { during with sigint := .dfl, sigterm := .dfl }
  ⟨body.1, post, body.2⟩

/-! ## VM spawning with retries (executor.py `_spawn_vm`, lines 75-108)

One provisioning attempt is `self.task_vm.prepare(**env)` followed by
`self.task_vm.wait_for_port(22)`.  `prepare` raises
`TestcloudInstanceError` on provisioning failure; `wait_for_port`
(ext/disposable/vm.py, lines 140-162) raises `TestcloudInstanceError`
when its overall timeout elapses.  Both are therefore caught by the
`except vm.TestcloudInstanceError` clause of the retry loop. -/

inductive AttemptResult
  | ok (ipaddr : String)
  | prepareErr
  | portTimeout
  deriving DecidableEq, Repr

/-- Whether the attempt raises `TestcloudInstanceError` (both failure
modes do; see vm.py line 159 for the timeout raise). -/
def AttemptResult.fails : AttemptResult → Bool
  | .ok _ => false
  | .prepareErr => true
  | .portTimeout => true

inductive SpawnOutcome
  | ipaddr (a : String)
  | minionError
  | noneReturn
  deriving DecidableEq, Repr

/-- Result of `_spawn_vm`: the outcome (returned address,
`exc.CheckbMinionError` raised, or the implicit Python `None` return when
the `while` loop body never runs), the number of provisioning attempts
made, and the number of `task_vm.teardown()` calls made between
retries. -/
structure SpawnResult where
  outcome : SpawnOutcome
  attempts : Nat
  teardowns : Nat
  deriving DecidableEq, Repr

/-- The `while retries > 0` loop of `_spawn_vm` (executor.py 90-108),
with fuel equal to the current value of `retries` and `k` the index of
the next attempt (`att k` is what the k-th provisioning attempt does).

Source:
```
while retries > 0:
    retries -= 1
    try:
        self.task_vm.prepare(**env)
        self.task_vm.wait_for_port(22)
        return self.task_vm.ipaddr
    except vm.TestcloudInstanceError as e:
        if retries <= 0:
            raise exc.CheckbMinionError(...)
        else:
            self.task_vm.teardown()
```
When the loop condition is false at entry the function falls through and
returns `None`. -/
def spawn_vm_loop (att : Nat → AttemptResult) (k : Nat) : Nat → SpawnResult
  | 0 => ⟨.noneReturn, 0, 0⟩
  | retries + 1 =>
    match att k with
    | .ok a => ⟨.ipaddr a, 1, 0⟩
    | .prepareErr =>
        if retries = 0 then ⟨.minionError, 1, 0⟩
        else
          let r := spawn_vm_loop att (k + 1) retries
          ⟨r.outcome, r.attempts + 1, r.teardowns + 1⟩
    | .portTimeout =>
        if retries = 0 then ⟨.minionError, 1, 0⟩
        else
          let r := spawn_vm_loop att (k + 1) retries
          ⟨r.outcome, r.attempts + 1, r.teardowns + 1⟩

/-- Entry point `Executor._spawn_vm` with `retries = config.get_config().spawn_vm_retries`. -/
def spawn_vm (att : Nat → AttemptResult) (retries : Nat) : SpawnResult :=
  spawn_vm_loop att 0 retries

/-! ## YAML values and the exception taxonomy -/

/-- A parsed YAML document, as produced by `yaml.safe_load`. -/
inductive Yaml
  | nullv
  | bool (b : Bool)
  | num (n : Int)
  | str (s : String)
  | list (xs : List Yaml)
  | dict (kvs : List (String × Yaml))

/-- Python truthiness (`if not x`) for the YAML values we model. -/
def Yaml.truthy : Yaml → Bool
  | .nullv => false
  | .bool b => b
  | .num n => n != 0
  | .str s => !s.isEmpty
  | .list xs => !xs.isEmpty
  | .dict kvs => !kvs.isEmpty

/-- Python built-in exceptions that are *not* part of the
`checkb.exceptions` taxonomy (exceptions.py: every Checkb exception
derives from `CheckbError`; these do not). -/
inductive PyExn
  | typeError
  | indexError
  | keyError
  | attributeError
  deriving DecidableEq, Repr

/-- The exceptions that can cross `Executor.execute`'s per-playbook
boundary, classified by how its `except` clauses see them
(exceptions.py 11-104).  `checkbRemote` is `CheckbRemoteError`, raised
by `TestCloudMachine.teardown` (vm.py 164-175): its
`_check_existing_instance(should_exist=True)` raises it when the
handle's instance no longer exists. -/
inductive Exn
  | checkbPlaybook
  | checkbMinion
  | checkbDirective (msg : String)
  | checkbGeneric
  | checkbInterrupt (sig : Nat)
  | checkbRemote
  | py (e : PyExn)
  deriving DecidableEq, Repr

/-- Test `isinstance(e, exc.CheckbError)`: the whole taxonomy derives from
`CheckbError` (including `CheckbInterruptError`); Python built-ins do not. -/
def Exn.isCheckbError : Exn → Bool
  | .py _ => false
  | _ => true

/-- Test `isinstance(e, exc.CheckbInterruptError)`. -/
def Exn.isInterrupt : Exn → Bool
  | .checkbInterrupt _ => true
  | _ => false

def Exn.isDirective : Exn → Bool
  | .checkbDirective _ => true
  | _ => false

/-! ## `_load_playbook_vars` (executor.py 169-187) -/

/-- The allow-list `Executor.ACCEPTED_VARS` (executor.py 47-54). -/
def ACCEPTED_VARS : List String :=
  ["checkb_generic_task",
   "checkb_keepalive_minutes",
   "checkb_match_host_arch",
   "checkb_match_host_distro",
   "checkb_match_host_release"]

/-- Python `dict.get key` on a YAML mapping. -/
def yamlLookup (kvs : List (String × Yaml)) (key : String) : Option Yaml :=
  (kvs.find? (fun kv => kv.1 == key)).map (fun kv => kv.2)

/-- Shallow embedding of `Executor._load_playbook_vars`: given the parsed
YAML content of the playbook file, evaluate
```
playbook_vars = playbook_yaml[0].get('vars', {})
vars_ = {var: val for var, val in playbook_vars.items() if var in ACCEPTED_VARS}
```
Each way the untyped subscripting/attribute access can blow up in Python
is made explicit: `None[0]` and `True[0]`/`3[0]` raise `TypeError`,
`[][0]` raises `IndexError`, `{...}[0]` raises `KeyError` (no integer
key is present in a playbook mapping), and `.get`/`.items` on a
non-mapping raise `AttributeError` (for a string, `s[0]` first raises
`IndexError` when the string is empty).  None of these derives from
`CheckbError`. -/
def load_playbook_vars (playbook_yaml : Yaml) : Except PyExn (List (String × Yaml)) := do
  let play ← match playbook_yaml with
    | .list [] => throw .indexError
    | .list (p :: _) => pure p
    | .dict _ => throw .keyError
    | .str s => if s.isEmpty then throw .indexError else throw .attributeError
    | _ => throw .typeError
  let pvars ← match play with
    | .dict kvs => pure ((yamlLookup kvs "vars").getD (.dict []))
    | _ => throw .attributeError
  let items ← match pvars with
    | .dict kvs => pure kvs
    | _ => throw .attributeError
  return items.filter (fun kv => ACCEPTED_VARS.contains kv.1)

/-! ## `_report_results` (executor.py 459-484) -/

/-- Model of `os.path.join` for a relative second component. -/
def pathJoin (a b : String) : String := a ++ "/" ++ b

/-- The path `os.path.join(self.arg_data['artifactsdir'], test_playbook, 'checkb',
'results.yml')`. -/
def results_file_path (artifactsdir test_playbook : String) : String :=
  pathJoin (pathJoin (pathJoin artifactsdir test_playbook) "checkb") "results.yml"

/-- The message of the `CheckbDirectiveError` raised when the results
file is absent (executor.py 472-476); `%s` is the expected path. -/
def missing_results_msg (results_file : String) : String :=
  "Results file doesn\x27t exist, assuming the task crashed. If you wish " ++
  "to report no results, the results file still needs to exist - consult " ++
  "documentation. Expected results file location: " ++ results_file

/-- Observable actions of the Executor that the claims talk about.
`teardownCleanup` is a successful `task_vm.teardown()` in `execute`'s
`finally` block; `teardownCleanupError` is the same call raising
`CheckbRemoteError` because the handle's instance no longer exists. -/
inductive Event
  | runPlaybookCalled (ipaddr : Option String)
  | reporterProcess (resultsFile : String)
  | sentinelCreated (path : String)
  | teardownCleanup
  | teardownCleanupError
  | teardownRetry
  deriving DecidableEq, Repr

/-- Shallow embedding of `Executor._report_results`.  `fs p` tells
whether path `p` exists on disk (`os.path.exists`).  On success the
reporter directive is invoked once and the `results.yml.reported_ok`
sentinel is created; when the results file is absent a
`CheckbDirectiveError` naming the expected path is raised and neither
happens. -/
def report_results (artifactsdir test_playbook : String) (fs : String → Bool) :
    Except Exn (List Event) :=
  let results_file := results_file_path artifactsdir test_playbook
  if fs results_file then
    .ok [.reporterProcess results_file,
         .sentinelCreated (pathJoin (pathJoin (pathJoin artifactsdir test_playbook)
           "checkb") "results.yml.reported_ok")]
  else
    .error (.checkbDirective (missing_results_msg results_file))

/-! ## `Executor.execute` (executor.py 486-562)

The loop over playbooks, with the per-playbook try/except/finally made
explicit.  For each playbook the environment's behaviour is captured by
a `PbScript`: what the syntax check says, the parsed playbook content,
what each provisioning attempt would do, what the `ansible-playbook`
run would do, and which files exist at reporting time.  Vault-secrets
handling inside `_create_playbook_vars` performs no control flow at
this level (its cleanup failure is caught and logged, executor.py
539-545) and is modelled separately below; the configured
`supported_arches` are assumed to be known base arches, as in the
default config.

`self.task_vm` is assigned by `_spawn_vm` (executor.py 86) and never
reset to `None`, so after a cleanup teardown the handle goes stale;
`teardown` on a handle whose instance no longer exists raises
`CheckbRemoteError` (vm.py 170).  The loop therefore has to track not
just whether a handle is held but whether its instance still exists. -/

structure ExecCfg where
  /-- Field `self.ipaddr` as computed by `_get_client_ipaddr`: `'127.0.0.1'`
  locally, the `--machine` address for persistent ssh, `none` when a
  disposable VM is required. -/
  ipaddr0 : Option String
  /-- Config entry `config.get_config().spawn_vm_retries` (config_defaults.py 97,
  default 3). -/
  spawn_vm_retries : Nat
  /-- Flag `self.arg_data['no_destroy']`. -/
  no_destroy : Bool
  /-- Path `self.arg_data['artifactsdir']`. -/
  artifactsdir : String

/-- State of `self.task_vm` and of the libvirt instance behind it.
`noVm`: `task_vm is None`.  `vmUp`: a handle whose instance exists, so
`teardown()` succeeds.  `vmGone`: a handle whose instance does not
exist — a stale handle from an earlier playbook's teardown, or a
never-provisioned machine — so `teardown()` raises `CheckbRemoteError`
(vm.py 170).  Teardown of an existing instance is modelled as
succeeding; failures of `remove()` on an existing instance are
external faults outside this model. -/
inductive VmState
  | noVm
  | vmUp
  | vmGone
  deriving DecidableEq, Repr

/-- Test `self.task_vm is not None`. -/
def VmState.isSet : VmState → Bool
  | .noVm => false
  | .vmUp => true
  | .vmGone => true

structure PbScript where
  /-- the playbook file name (matched by `tests*.yml`) -/
  name : String
  /-- whether `ansible-playbook --syntax-check` exits zero -/
  synCheckOk : Bool
  /-- the parsed content of the playbook file -/
  yamlContent : Yaml
  /-- what the k-th provisioning attempt does, if a VM is spawned -/
  attempts : Nat → AttemptResult
  /-- what the `ansible-playbook` run does -/
  runScenario : RunScenario
  /-- which paths exist at reporting time -/
  fs : String → Bool
  /-- whether, when the spawn loop exhausts its retries, the final
  failed attempt left an instance behind (`true` e.g. for a port-wait
  timeout, where `prepare` completed; a failed `prepare` may leave
  either state) -/
  failedSpawnLeavesInstance : Bool

/-- Outcome of the body of the per-playbook `try` block. -/
inductive TryResult
  | ok
  | raised (e : Exn)
  deriving DecidableEq, Repr

/-- State after processing one playbook inside the `try` body. -/
structure PbStep where
  res : TryResult
  /-- State of `self.task_vm` afterwards -/
  vmAfter : VmState
  /-- Whether `_spawn_vm` was entered for this playbook -/
  spawned : Bool
  events : List Event

/-- The outcome of `_run_playbook` as seen by `execute` (ignoring the
signal-handler state, which `run_playbook` always leaves at `SIG_DFL`). -/
def runOutcomeOf (sc : RunScenario) : RunOutcome :=
  (run_playbook ⟨.dfl, .dfl⟩ sc).outcome

/-- The tail of the `try` body from the `_run_playbook` call on:
execute the playbook against the resolved address, then report results. -/
def runAndReport (cfg : ExecCfg) (vmNow : VmState) (spawned : Bool) (evs : List Event)
    (ipaddr : Option String) (pb : PbScript) : PbStep :=
  let evs := evs ++ [Event.runPlaybookCalled ipaddr]
  match runOutcomeOf pb.runScenario with
  | .errInterrupt sig => ⟨.raised (.checkbInterrupt sig), vmNow, spawned, evs⟩
  | .errCheckb => ⟨.raised .checkbGeneric, vmNow, spawned, evs⟩
  | .ok _ =>
    match report_results cfg.artifactsdir pb.name pb.fs with
    | .error e => ⟨.raised e, vmNow, spawned, evs⟩
    | .ok revs => ⟨.ok, vmNow, spawned, evs ++ revs⟩

/-- The body of the per-playbook `try` block (executor.py 503-528):
syntax check, variable computation (whose fallible part is
`_load_playbook_vars`), the generic-task guard, VM spawning when no
address is known, playbook execution, results reporting.  Note that
`_spawn_vm` assigns `self.task_vm` *before* its retry loop
(executor.py 86), so `task_vm` is set even when every attempt fails,
and when the retry bound is zero `_spawn_vm` returns Python `None`,
which is then passed to `_run_playbook` as the address — with the
fresh handle's instance never provisioned (`vmGone`).  A successful
spawn leaves an existing instance (`vmUp`); an exhausted spawn leaves
the handle set with the final failed attempt's leftover state. -/
def processPlaybook (cfg : ExecCfg) (vm0 : VmState) (pb : PbScript) : PbStep :=
  if !pb.synCheckOk then ⟨.raised .checkbPlaybook, vm0, false, []⟩
  else
    match load_playbook_vars pb.yamlContent with
    | .error e => ⟨.raised (.py e), vm0, false, []⟩
    | .ok loaded =>
      let generic := ((yamlLookup loaded "checkb_generic_task").getD (.bool false)).truthy
      if !generic then ⟨.raised .checkbPlaybook, vm0, false, []⟩
      else
        match cfg.ipaddr0 with
        | some a => runAndReport cfg vm0 false [] (some a) pb
        | none =>
          let r := spawn_vm pb.attempts cfg.spawn_vm_retries
          let tevs := List.replicate r.teardowns Event.teardownRetry
          match r.outcome with
          | .minionError => ⟨.raised .checkbMinion,
              if pb.failedSpawnLeavesInstance then .vmUp else .vmGone, true, tevs⟩
          | .ipaddr a => runAndReport cfg .vmUp true tevs (some a) pb
          | .noneReturn => runAndReport cfg .vmGone true tevs none pb

/-- Pending control flow at the start of the `finally` block. -/
inductive Pending
  | toContinue
  | toBreak
  | toRaise (e : Exn)
  deriving DecidableEq, Repr

/-- The two `except` clauses (executor.py 529-538), in source order:
`CheckbInterruptError` logs, appends to `failed` and `break`s;
any other `CheckbError` logs and appends (the loop then continues);
anything else is not caught.  The second component says whether the
playbook was appended to `failed`. -/
def exceptClause : TryResult → Pending × Bool
  | .ok => (.toContinue, false)
  | .raised e =>
    if e.isInterrupt then (.toBreak, true)
    else if e.isCheckbError then (.toContinue, true)
    else (.toRaise e, false)

/-- The `finally` block (executor.py 539-554), given the pending
control flow `p` from the try/except part: when `task_vm` is set,
either the `no-destroy` `break` replaces whatever was pending —
including a propagating exception — or `task_vm.teardown()` runs.
Teardown succeeds only when the handle's instance exists (`vmUp`),
removing the instance but leaving `task_vm` set, hence the next
iteration starts from a stale `vmGone` handle; on a `vmGone` handle
`teardown` raises `CheckbRemoteError` (vm.py 170), and an exception
raised inside `finally` replaces the pending control flow, aborting
the loop.  Returns the resulting control flow, the teardown events,
and the `task_vm` state for the next iteration. -/
def finallyClause (st : VmState) (no_destroy : Bool) (p : Pending) :
    Pending × List Event × VmState :=
  match st with
  | .noVm => (p, [], .noVm)
  | .vmUp =>
    if no_destroy then (.toBreak, [], .vmUp)
    else (p, [.teardownCleanup], .vmGone)
  | .vmGone =>
    if no_destroy then (.toBreak, [], .vmGone)
    else (.toRaise .checkbRemote, [.teardownCleanupError], .vmGone)

/-- What `execute` records about one processed playbook. -/
structure PbRecord where
  name : String
  res : TryResult
  spawned : Bool
  /-- Whether `self.task_vm is not None` when the `finally` block runs -/
  vmActive : Bool
  events : List Event
  deriving DecidableEq, Repr

inductive LoopEnd
  | finishedLoop
  | raisedOther (e : Exn)
  deriving DecidableEq, Repr

/-- The `for test_playbook in test_playbooks` loop of `execute`,
starting from `task_vm` state `vm0`.  Returns the `failed` list (in
append order), one record per playbook actually processed, and whether
the loop ended normally or an uncaught exception escaped. -/
def execGo (cfg : ExecCfg) (vm0 : VmState) :
    List PbScript → List String × List PbRecord × LoopEnd
  | [] => ([], [], .finishedLoop)
  | pb :: rest =>
    let step := processPlaybook cfg vm0 pb
    let p0 := (exceptClause step.res).1
    let appended := (exceptClause step.res).2
    let fc := finallyClause step.vmAfter cfg.no_destroy p0
    let rec1 : PbRecord := ⟨pb.name, step.res, step.spawned, step.vmAfter.isSet,
      step.events ++ fc.2.1⟩
    let failedHere := if appended then [pb.name] else []
    match fc.1 with
    | .toContinue =>
      let r := execGo cfg fc.2.2 rest
      (failedHere ++ r.1, rec1 :: r.2.1, r.2.2)
    | .toBreak => (failedHere, [rec1], .finishedLoop)
    | .toRaise e => (failedHere, [rec1], .raisedOther e)

/-- How a call to `Executor.execute` ends. -/
inductive ExecOutcome
  | noPlaybooks
  | finished (retval : Bool) (failed : List String) (recs : List PbRecord)
  | raised (e : Exn) (failed : List String) (recs : List PbRecord)
  deriving DecidableEq, Repr

/-- Shallow embedding of `Executor.execute` (executor.py 486-562).  With no `tests*.yml`
present a `CheckbError` is raised before the loop; otherwise the loop
runs and the return value is `not failed`. -/
def execute (cfg : ExecCfg) (pbs : List PbScript) : ExecOutcome :=
  if pbs.isEmpty then .noPlaybooks
  else
    let r := execGo cfg .noVm pbs
    match r.2.2 with
    | .finishedLoop => .finished r.1.isEmpty r.1 r.2.1
    | .raisedOther e => .raised e r.1 r.2.1

def ExecOutcome.records : ExecOutcome → List PbRecord
  | .noPlaybooks => []
  | .finished _ _ recs => recs
  | .raised _ _ recs => recs

def ExecOutcome.failedNames : ExecOutcome → List String
  | .noPlaybooks => []
  | .finished _ f _ => f
  | .raised _ f _ => f

/-! ## `_create_playbook_vars` and `_get_vault_secrets`
(executor.py 189-338)

`_get_vault_secrets` talks to the network and to `tempfile.mkstemp`.
Both are process-external state, bundled here in `World`: the Vault
server's response, the task repository's git origin URL, and the state
of the temp-file name generator (`mkstemp` returns a fresh, previously
unused name on each call; we model the generator as a counter).  The
regex scan `re.findall(r'checkb_enable\((.*?)\)', description)` is
abstracted as the bucket's pre-extracted list of matches. -/

/-- Enum `config_defaults.ProfileName` (config_defaults.py 14-20). -/
inductive Profile
  | development
  | production
  | testing
  deriving DecidableEq, Repr

/-- The slice of the configuration read by `_create_playbook_vars` and
`_get_vault_secrets`. -/
structure VarsCfg where
  profile : Profile
  vault_enabled : Bool
  vault_server : String
  vault_username : String
  vault_password : String
  client_taskdir : String
  minion_repos : List String
  minion_repos_ignore_errors : Bool
  supported_arches : List String
  deriving DecidableEq, Repr

/-- One bucket from the Vault server's `/buckets` answer.  `enablers`
is the list of matches of `checkb_enable\((.*?)\)` in `description`. -/
structure Bucket where
  uuid : String
  description : String
  enablers : List String
  secrets : List (String × String)
  deriving DecidableEq, Repr

/-- Python's substring test `needle in hay`. -/
def strContains (hay needle : String) : Bool :=
  if needle.isEmpty then true else (hay.splitOn needle).length > 1

/-- Process-external state consumed by `_get_vault_secrets`. -/
structure World where
  /-- Result of `resultsdb_directive.git_origin_url(taskdir)` -/
  gitOrigin : Option String
  /-- Response state: `none` means the GET raised `RequestException` (`r = None`);
  `some none`: `r` not ok; `some (some data)`: `r.ok` with these buckets -/
  vaultResponse : Option (Option (List Bucket))
  /-- state of the `tempfile.mkstemp` unique-name generator -/
  tmpCounter : Nat
  deriving DecidableEq, Repr

/-- What `_get_vault_secrets` returns: under the TESTING profile the
secrets mapping itself (executor.py 227-228), otherwise the name of a
fresh temp file the secrets were written to (executor.py 230-234). -/
inductive SecretsRef
  | file (path : String)
  | inline (secrets : List (String × List (String × String)))
  deriving DecidableEq, Repr

/-- Shallow embedding of `Executor._get_vault_secrets`
(executor.py 189-234).  Buckets with an empty description are skipped;
a bucket is kept when the task repo URL occurs (Python `in`, a substring
test) in the comma-joined list of its `checkb_enable(...)` matches.
Request failures and non-ok responses are logged and yield no secrets.
The temp-file write advances the name-generator state — the one
component of the result that is not a function of the declared inputs. -/
def get_vault_secrets (cfg : VarsCfg) (taskdir : String) (w : World) :
    SecretsRef × World :=
  let secrets : List (String × List (String × String)) :=
    if cfg.vault_enabled then
      match w.gitOrigin with
      | none => []
      | some task_repo_url =>
        match w.vaultResponse with
        | none => []
        | some none => []
        | some (some data) =>
          let valid := data.filter (fun b =>
            !b.description.isEmpty &&
            strContains (String.intercalate ", " b.enablers) task_repo_url)
          valid.map (fun b => (b.uuid, b.secrets))
    else []
  if cfg.profile = .testing then
    (.inline secrets, w)
  else
    (.file ("/tmp/checkb_secrets" ++ toString w.tmpCounter),
     { w with tmpCounter := w.tmpCounter + 1 })

/-- The slice of `arg_data` read by `_create_playbook_vars`. -/
structure ArgData where
  taskdir : String
  artifactsdir : String
  arch : String
  item : String
  itemType : String
  deriving DecidableEq, Repr

/-- Mapping `arch_utils.Arches.binary` (arch_utils.py 17-25); `none` for a key
not in the mapping (a `KeyError` in Python). -/
def archesBinary (arch : String) : Option (List String) :=
  if arch = "aarch64" then some ["aarch64"]
  else if arch = "armhfp" then some ["armhfp", "armv7hl"]
  else if arch = "i386" then some ["i386", "i486", "i586", "i686"]
  else if arch = "ppc64" then some ["ppc64"]
  else if arch = "ppc64le" then some ["ppc64le"]
  else if arch = "s390x" then some ["s390x"]
  else if arch = "x86_64" then some ["x86_64"]
  else none

/-- The `vars_` dictionary built by `_create_playbook_vars`
(executor.py 236-338).  Its key set is fixed by the code, so it is a
record; the five `ACCEPTED_VARS` (which a playbook may override with an
arbitrary YAML value) are `Yaml`-typed.  `localExec` is the source's
`local` key (a Lean keyword). -/
structure PlaybookVars where
  become_root : Bool
  checkb_generic_task : Yaml
  heartbeat_interval : Nat
  checkb_keepalive_minutes : Yaml
  checkb_match_host_arch : Yaml
  checkb_match_host_distro : Yaml
  checkb_match_host_release : Yaml
  varsfile : String
  ansible_python_interpreter : String
  artifacts : String
  artifacts_root : String
  client_taskdir : String
  heartbeat_file : String
  localExec : Bool
  minion_repos : List String
  minion_repos_ignore_errors : Bool
  taskdir : String
  checkb_arch : String
  checkb_item : String
  checkb_item_type : String
  checkb_secrets_file : SecretsRef
  checkb_supported_arches : List String
  checkb_supported_binary_arches : List String
  test_playbook : String

/-- The list `[binarch for arch in cfg.supported_arches for binarch in
Arches.binary[arch]]` (executor.py 334-335); `none` when some
configured arch is unknown to the mapping (a `KeyError`). -/
def binary_arches : List String → Option (List String)
  | [] => some []
  | a :: rest =>
    match archesBinary a, binary_arches rest with
    | some bs, some rs => some (bs ++ rs)
    | _, _ => none

/-- Shallow embedding of `Executor._create_playbook_vars`
(executor.py 236-338): defaults, then the allow-listed playbook
overrides from `_load_playbook_vars` (each `getD` falls back to the
default set at the top of the function), then the computed entries.
`run_remotely` is `self.run_remotely`.  Fallible parts surface in the
`Except`: the playbook file's YAML shape (`_load_playbook_vars`) and
the `Arches.binary[arch]` lookups for the configured arches. -/
def create_playbook_vars (cfg : VarsCfg) (arg : ArgData) (run_remotely : Bool)
    (test_playbook : String) (playbookYaml : Yaml) (w : World) :
    Except PyExn (PlaybookVars × World) :=
  match load_playbook_vars playbookYaml with
  | .error e => .error e
  | .ok loaded =>
    match binary_arches cfg.supported_arches with
    | none => .error .keyError
    | some binarches =>
      let sw := get_vault_secrets cfg arg.taskdir w
      .ok ({
        become_root := true
        checkb_generic_task := (yamlLookup loaded "checkb_generic_task").getD (.bool false)
        heartbeat_interval := 120
        checkb_keepalive_minutes := (yamlLookup loaded "checkb_keepalive_minutes").getD (.num 0)
        checkb_match_host_arch := (yamlLookup loaded "checkb_match_host_arch").getD (.bool false)
        checkb_match_host_distro := (yamlLookup loaded "checkb_match_host_distro").getD (.bool false)
        checkb_match_host_release := (yamlLookup loaded "checkb_match_host_release").getD (.bool false)
        varsfile := "task_vars.json"
        ansible_python_interpreter := "/usr/bin/python3"
        artifacts := pathJoin arg.artifactsdir test_playbook
        artifacts_root := arg.artifactsdir
        client_taskdir := cfg.client_taskdir
        heartbeat_file := pathJoin (pathJoin arg.artifactsdir "checkb") "heartbeat.log"
        localExec := !run_remotely
        minion_repos := cfg.minion_repos
        minion_repos_ignore_errors := cfg.minion_repos_ignore_errors
        taskdir := arg.taskdir
        checkb_arch := arg.arch
        checkb_item := arg.item
        checkb_item_type := arg.itemType
        checkb_secrets_file := sw.1
        checkb_supported_arches := cfg.supported_arches
        checkb_supported_binary_arches := binarches
        test_playbook := test_playbook }, sw.2)

/-! ## Concrete fixtures used by witnesses and counterexamples -/

/-- A syntactically valid playbook whose first play declares
`checkb_generic_task: true`. -/
def genericTaskYaml : Yaml :=
  .list [.dict [("vars", .dict [("checkb_generic_task", .bool true)])]]

/-- A well-behaved playbook script: generic task, provisioning succeeds
on the first attempt, the run succeeds, the results file exists. -/
def pbGood (nm : String) : PbScript :=
  ⟨nm, true, genericTaskYaml, fun _ => .ok "192.168.122.58", .ok "output", fun _ => true, true⟩

/-- Like `pbGood` but the `ansible-playbook` run exits non-zero
(a `CheckbError` at the loop boundary). -/
def pbRunFails (nm : String) : PbScript :=
  ⟨nm, true, genericTaskYaml, fun _ => .ok "192.168.122.58", .procErr 2, fun _ => true, true⟩

/-- Like `pbGood` but no results file exists at reporting time. -/
def pbNoResults (nm : String) : PbScript :=
  ⟨nm, true, genericTaskYaml, fun _ => .ok "192.168.122.58", .ok "output", fun _ => false, true⟩

/-- A playbook file whose top-level YAML document is empty
(`yaml.safe_load` returns `None`). -/
def pbEmptyYaml (nm : String) : PbScript :=
  ⟨nm, true, .nullv, fun _ => .ok "192.168.122.58", .ok "output", fun _ => true, true⟩

/-- A playbook whose `ansible-playbook --syntax-check` fails. -/
def pbBadSyntax (nm : String) : PbScript :=
  ⟨nm, false, genericTaskYaml, fun _ => .ok "192.168.122.58", .ok "output", fun _ => true, true⟩

/-- Local-mode configuration: address resolved to the loopback. -/
def cfgLocal : ExecCfg := ⟨some "127.0.0.1", 3, false, "/var/artifacts"⟩

/-- Disposable-VM configuration with the default retry bound. -/
def cfgLibvirt : ExecCfg := ⟨none, 3, false, "/var/artifacts"⟩

/-- Disposable-VM configuration with `--no-destroy`. -/
def cfgNoDestroy : ExecCfg := ⟨none, 3, true, "/var/artifacts"⟩

/-- Disposable-VM configuration with a spawn retry bound of zero. -/
def cfgZeroRetries : ExecCfg := ⟨none, 0, false, "/var/artifacts"⟩

/-- Configuration fixture for the variable-computation claims
(vault disabled, production profile). -/
def demoVarsCfg : VarsCfg :=
  ⟨.production, false, "http://vault", "checkb", "checkb",
   "/var/tmp/checkb/taskdir", [], false, ["x86_64"]⟩

/-- Fixture `demoVarsCfg` under the TESTING profile. -/
def demoVarsCfgTesting : VarsCfg :=
  ⟨.testing, false, "http://vault", "checkb", "checkb",
   "/var/tmp/checkb/taskdir", [], false, ["x86_64"]⟩

def demoArgData : ArgData :=
  ⟨"/srv/task", "/var/artifacts", "x86_64", "foo-1.0-1.fc28", "koji_build"⟩

/-- If every attempt fails, the loop makes one attempt per unit of fuel
and ends in `minionError` (with a teardown between consecutive attempts). -/
theorem spawn_loop_all_fail (att : Nat → AttemptResult) (k n : Nat)
    (hn : 1 ≤ n) (hf : ∀ j, j < n → (att (k + j)).fails = true) :
    spawn_vm_loop att k n = ⟨.minionError, n, n - 1⟩ := by
  induction n generalizing k with
  | zero => omega
  | succ m ih =>
    have h0 : (att k).fails = true := by
      have := hf 0 (by omega)
      simpa using this
    cases hk : att k with
    | ok a => rw [hk] at h0; simp [AttemptResult.fails] at h0
    | prepareErr =>
      rw [spawn_vm_loop, hk]
      rcases Nat.eq_zero_or_pos m with hm | hm
      · subst hm; simp
      · have hrec := ih (k + 1) hm (fun j hj => by
          have := hf (j + 1) (by omega)
          simpa [Nat.add_assoc, Nat.add_comm 1 j] using this)
        simp only [if_neg (by omega : ¬ m = 0), hrec]
        have h1 : m - 1 + 1 = m := by omega
        simp [h1]
    | portTimeout =>
      rw [spawn_vm_loop, hk]
      rcases Nat.eq_zero_or_pos m with hm | hm
      · subst hm; simp
      · have hrec := ih (k + 1) hm (fun j hj => by
          have := hf (j + 1) (by omega)
          simpa [Nat.add_assoc, Nat.add_comm 1 j] using this)
        simp only [if_neg (by omega : ¬ m = 0), hrec]
        have h1 : m - 1 + 1 = m := by omega
        simp [h1]

/-- If the first `n - 1` attempts fail and the `n`-th succeeds with
address `a`, the loop returns `a` after exactly `n` attempts. -/
theorem spawn_loop_last_ok (att : Nat → AttemptResult) (k n : Nat) (a : String)
    (hn : 1 ≤ n) (hf : ∀ j, j < n - 1 → (att (k + j)).fails = true)
    (hs : att (k + (n - 1)) = .ok a) :
    spawn_vm_loop att k n = ⟨.ipaddr a, n, n - 1⟩ := by
  induction n generalizing k with
  | zero => omega
  | succ m ih =>
    rcases Nat.eq_zero_or_pos m with hm | hm
    · subst hm
      rw [spawn_vm_loop]
      have hka : att k = .ok a := by simpa using hs
      rw [hka]
    · have h0 : (att k).fails = true := by
        have := hf 0 (by omega)
        simpa using this
      cases hk : att k with
      | ok a' => rw [hk] at h0; simp [AttemptResult.fails] at h0
      | prepareErr =>
        rw [spawn_vm_loop, hk]
        have hrec := ih (k + 1) hm (fun j hj => by
            have := hf (j + 1) (by omega)
            simpa [Nat.add_assoc, Nat.add_comm 1 j] using this)
          (by
            have he : k + 1 + (m - 1) = k + (m + 1 - 1) := by omega
            rw [he]; exact hs)
        simp only [if_neg (by omega : ¬ m = 0), hrec]
        have h1 : m - 1 + 1 = m := by omega
        simp [h1]
      | portTimeout =>
        rw [spawn_vm_loop, hk]
        have hrec := ih (k + 1) hm (fun j hj => by
            have := hf (j + 1) (by omega)
            simpa [Nat.add_assoc, Nat.add_comm 1 j] using this)
          (by
            have he : k + 1 + (m - 1) = k + (m + 1 - 1) := by omega
            rw [he]; exact hs)
        simp only [if_neg (by omega : ¬ m = 0), hrec]
        have h1 : m - 1 + 1 = m := by omega
        simp [h1]

/-- With at least one unit of fuel the loop never falls through to the
implicit `None` return: it either returns an address or raises. -/
theorem spawn_loop_no_none (att : Nat → AttemptResult) (k n : Nat) (hn : 1 ≤ n) :
    (spawn_vm_loop att k n).outcome ≠ .noneReturn := by
  induction n generalizing k with
  | zero => omega
  | succ m ih =>
    rw [spawn_vm_loop]
    cases att k with
    | ok a => simp
    | prepareErr =>
      rcases Nat.eq_zero_or_pos m with hm | hm
      · subst hm; simp
      · simp only [if_neg (by omega : ¬ m = 0)]
        exact ih (k + 1) hm
    | portTimeout =>
      rcases Nat.eq_zero_or_pos m with hm | hm
      · subst hm; simp
      · simp only [if_neg (by omega : ¬ m = 0)]
        exact ih (k + 1) hm

/-- Claim C1, counterexample.  The claim says the handlers in effect
before `_run_playbook` are in effect again after it, on every exit
path.  But the `finally` block (executor.py 443-446) sets both handlers
to `SIG_DFL` unconditionally, so any pre-call state other than
`SIG_DFL` is *not* reestablished — here a custom pre-call handler pair,
checked on all three exit paths (normal return, execution error,
propagating interrupt). -/
theorem c1_handlers_not_restored :
    ((run_playbook ⟨.custom 1, .custom 2⟩ (.ok "out")).handlers ≠
      ⟨.custom 1, .custom 2⟩) ∧
    ((run_playbook ⟨.custom 1, .custom 2⟩ (.procErr 2)).handlers ≠
      ⟨.custom 1, .custom 2⟩) ∧
    ((run_playbook ⟨.custom 1, .custom 2⟩ (.interrupt 15 .ok)).handlers ≠
      ⟨.custom 1, .custom 2⟩) := by
  decide

/-- Claim C1, amended.  On every exit path of `_run_playbook` — normal
return, raised execution error, propagating interrupt — the SIGINT and
SIGTERM handlers are set to the fixed default handler `SIG_DFL`; the
pre-call handlers are therefore reestablished exactly when they were
already `SIG_DFL`. -/
theorem c1_handlers_always_default (pre : SigState) (sc : RunScenario) :
    (run_playbook pre sc).handlers = ⟨.dfl, .dfl⟩ := by
  cases sc <;> rfl

/-- Claim C2, confirmed.  For every retry bound `N ≥ 1`: if every
provisioning attempt raises the provisioning-specific error
(`TestcloudInstanceError`), `_spawn_vm` makes exactly `N` attempts and
then raises `CheckbMinionError`; if attempts `1..N-1` fail and attempt
`N` succeeds, `_spawn_vm` returns the address obtained by the
successful attempt (again `N` attempts in total, one per index). -/
theorem c2_spawn_vm_retry_semantics (N : Nat) (att : Nat → AttemptResult)
    (hN : 1 ≤ N) :
    ((∀ k, k < N → (att k).fails = true) →
      spawn_vm att N = ⟨.minionError, N, N - 1⟩) ∧
    (∀ a, (∀ k, k < N - 1 → (att k).fails = true) → att (N - 1) = .ok a →
      spawn_vm att N = ⟨.ipaddr a, N, N - 1⟩) := by
  constructor
  · intro hf
    exact spawn_loop_all_fail att 0 N hN (fun j hj => by simpa using hf j hj)
  · intro a hf hs
    exact spawn_loop_last_ok att 0 N a hN
      (fun j hj => by simpa using hf j hj) (by simpa using hs)

/-- Witness for `c2_spawn_vm_retry_semantics` at the default retry
bound 3: an always-failing provisioner yields `CheckbMinionError`
after exactly 3 attempts, and a provisioner failing twice then
succeeding yields the successful attempt's address. -/
theorem c2_spawn_vm_retry_semantics_witness :
    spawn_vm (fun _ => .prepareErr) 3 = ⟨.minionError, 3, 2⟩ ∧
    spawn_vm (fun k => if k < 2 then .prepareErr else .ok "10.11.12.13") 3 =
      ⟨.ipaddr "10.11.12.13", 3, 2⟩ := by
  constructor
  · exact (c2_spawn_vm_retry_semantics 3 (fun _ => .prepareErr)
      (by norm_num)).1 (fun k hk => rfl)
  · exact (c2_spawn_vm_retry_semantics 3
      (fun k => if k < 2 then .prepareErr else .ok "10.11.12.13")
      (by norm_num)).2 "10.11.12.13"
      (fun k hk => by
        have hk2 : k = 0 ∨ k = 1 := by omega
        rcases hk2 with h | h <;> subst h <;> rfl)
      (by norm_num)

/-- Claim C7, counterexample.  The claim says a `wait_for_port` timeout
is never retried by the Executor's spawn loop.  But `wait_for_port`
raises `TestcloudInstanceError` on timeout (vm.py 157-159), the very
type `_spawn_vm` catches and retries: with the default bound 3, a first
attempt that times out on the port wait is followed by a second
provisioning attempt (2 attempts made, with a teardown in between). -/
theorem c7_port_timeout_retried_counterexample :
    (fun j => if j = 0 then AttemptResult.portTimeout
              else AttemptResult.ok "10.11.12.13") 0 = .portTimeout ∧
    spawn_vm (fun j => if j = 0 then AttemptResult.portTimeout
              else AttemptResult.ok "10.11.12.13") 3 =
      ⟨.ipaddr "10.11.12.13", 2, 1⟩ := by
  decide

/-- Claim C7, amended.  A port-wait timeout raises the same
provisioning-specific error type (`TestcloudInstanceError`) as a failed
`prepare`, and the Executor's spawn loop treats it identically: while
retry budget remains the partial VM is torn down and provisioning is
re-attempted; when the budget is exhausted the loop raises
`CheckbMinionError`. -/
theorem c7_port_timeout_is_retried (att : Nat → AttemptResult) (n : Nat)
    (hto : att 0 = .portTimeout) :
    (2 ≤ n → spawn_vm att n =
      ⟨(spawn_vm_loop att 1 (n - 1)).outcome,
       (spawn_vm_loop att 1 (n - 1)).attempts + 1,
       (spawn_vm_loop att 1 (n - 1)).teardowns + 1⟩) ∧
    spawn_vm att 1 = ⟨.minionError, 1, 0⟩ := by
  constructor
  · intro hn
    obtain ⟨m, rfl⟩ : ∃ m, n = m + 2 := ⟨n - 2, by omega⟩
    show spawn_vm_loop att 0 (m + 1 + 1) = _
    rw [spawn_vm_loop, hto]
    simp only [if_neg (by omega : ¬ m + 1 = 0)]
    simp
  · show spawn_vm_loop att 0 (0 + 1) = _
    rw [spawn_vm_loop, hto]
    simp

/-- Witness for `c7_port_timeout_is_retried`: with bound 3 and a first
attempt that times out on the port wait, the loop retries and the
second attempt's address is returned; with bound 1 such a timeout is
fatal immediately. -/
theorem c7_port_timeout_is_retried_witness :
    spawn_vm (fun j => if j = 1 then AttemptResult.ok "192.168.122.7"
              else AttemptResult.portTimeout) 3 =
      ⟨.ipaddr "192.168.122.7", 2, 1⟩ ∧
    spawn_vm (fun j => if j = 1 then AttemptResult.ok "192.168.122.7"
              else AttemptResult.portTimeout) 1 =
      ⟨.minionError, 1, 0⟩ := by
  constructor
  · have h := (c7_port_timeout_is_retried
      (fun j => if j = 1 then AttemptResult.ok "192.168.122.7"
                else AttemptResult.portTimeout) 3 rfl).1 (by norm_num)
    rw [h]
    decide
  · exact (c7_port_timeout_is_retried
      (fun j => if j = 1 then AttemptResult.ok "192.168.122.7"
                else AttemptResult.portTimeout) 1 rfl).2

/-! ### Structural lemmas about one playbook's processing -/

theorem report_results_def (adir tp : String) (fs : String → Bool) :
    report_results adir tp fs =
      if fs (results_file_path adir tp) = true then
        .ok [.reporterProcess (results_file_path adir tp),
             .sentinelCreated (pathJoin (pathJoin (pathJoin adir tp)
               "checkb") "results.yml.reported_ok")]
      else .error (.checkbDirective (missing_results_msg (results_file_path adir tp))) := rfl

theorem runAndReport_vmAfter (cfg : ExecCfg) (vmA : VmState) (sp : Bool)
    (evs : List Event) (addr : Option String) (pb : PbScript) :
    (runAndReport cfg vmA sp evs addr pb).vmAfter = vmA := by
  unfold runAndReport
  repeat' split
  all_goals rfl

theorem runAndReport_spawned (cfg : ExecCfg) (vmA : VmState) (sp : Bool)
    (evs : List Event) (addr : Option String) (pb : PbScript) :
    (runAndReport cfg vmA sp evs addr pb).spawned = sp := by
  unfold runAndReport
  repeat' split
  all_goals rfl

/-- Every event produced by the run-and-report phase is either carried
over from the spawn phase, the `_run_playbook` invocation itself, or a
reporting event. -/
theorem runAndReport_mem_events (cfg : ExecCfg) (vmA : VmState) (sp : Bool)
    (evs : List Event) (addr : Option String) (pb : PbScript) (x : Event)
    (hx : x ∈ (runAndReport cfg vmA sp evs addr pb).events) :
    x ∈ evs ∨ x = .runPlaybookCalled addr ∨
    (∃ rf, x = .reporterProcess rf) ∨ (∃ sp2, x = .sentinelCreated sp2) := by
  unfold runAndReport at hx
  cases hro : runOutcomeOf pb.runScenario with
  | ok out =>
    simp only [hro] at hx
    rw [report_results_def] at hx
    by_cases hfs : pb.fs (results_file_path cfg.artifactsdir pb.name) = true
    · simp only [if_pos hfs] at hx
      simp at hx
      aesop
    · simp only [if_neg hfs] at hx
      simp at hx
      aesop
  | errCheckb =>
    simp only [hro] at hx
    simp at hx
    aesop
  | errInterrupt s =>
    simp only [hro] at hx
    simp at hx
    aesop

/-- When the run-and-report phase does not complete normally, it emits
no reporter invocation of its own. -/
theorem runAndReport_reporter_only_ok (cfg : ExecCfg) (vmA : VmState) (sp : Bool)
    (evs : List Event) (addr : Option String) (pb : PbScript) (rf : String)
    (hx : Event.reporterProcess rf ∈ (runAndReport cfg vmA sp evs addr pb).events)
    (hres : (runAndReport cfg vmA sp evs addr pb).res ≠ .ok) :
    Event.reporterProcess rf ∈ evs := by
  unfold runAndReport at hx hres
  cases hro : runOutcomeOf pb.runScenario with
  | ok out =>
    simp only [hro] at hx hres
    rw [report_results_def] at hx hres
    by_cases hfs : pb.fs (results_file_path cfg.artifactsdir pb.name) = true
    · simp only [if_pos hfs] at hx hres
      simp at hres
    · simp only [if_neg hfs] at hx
      simp at hx
      aesop
  | errCheckb =>
    simp only [hro] at hx
    simp at hx
    aesop
  | errInterrupt s =>
    simp only [hro] at hx
    simp at hx
    aesop

theorem processPlaybook_shape (cfg : ExecCfg) (vm0 : VmState) (pb : PbScript) :
    processPlaybook cfg vm0 pb = ⟨.raised .checkbPlaybook, vm0, false, []⟩ ∨
    (∃ e, processPlaybook cfg vm0 pb = ⟨.raised (.py e), vm0, false, []⟩) ∨
    (∃ a, cfg.ipaddr0 = some a ∧
      processPlaybook cfg vm0 pb = runAndReport cfg vm0 false [] (some a) pb) ∨
    (cfg.ipaddr0 = none ∧
      (spawn_vm pb.attempts cfg.spawn_vm_retries).outcome = .minionError ∧
      processPlaybook cfg vm0 pb = ⟨.raised .checkbMinion,
        if pb.failedSpawnLeavesInstance then .vmUp else .vmGone, true,
        List.replicate (spawn_vm pb.attempts cfg.spawn_vm_retries).teardowns .teardownRetry⟩) ∨
    (cfg.ipaddr0 = none ∧ ∃ a,
      (spawn_vm pb.attempts cfg.spawn_vm_retries).outcome = .ipaddr a ∧
      processPlaybook cfg vm0 pb = runAndReport cfg .vmUp true
        (List.replicate (spawn_vm pb.attempts cfg.spawn_vm_retries).teardowns .teardownRetry)
        (some a) pb) ∨
    (cfg.ipaddr0 = none ∧
      (spawn_vm pb.attempts cfg.spawn_vm_retries).outcome = .noneReturn ∧
      processPlaybook cfg vm0 pb = runAndReport cfg .vmGone true
        (List.replicate (spawn_vm pb.attempts cfg.spawn_vm_retries).teardowns .teardownRetry)
        none pb) := by
  simp only [processPlaybook]
  split
  · exact Or.inl rfl
  · split
    next e heq => exact Or.inr (Or.inl ⟨e, rfl⟩)
    next loaded heq =>
      split
      · exact Or.inl rfl
      · split
        next a heq2 =>
          refine Or.inr (Or.inr (Or.inl ⟨a, ?_, rfl⟩))
          first | rfl | exact heq2
        next heq2 =>
          split
          next heq3 =>
            refine Or.inr (Or.inr (Or.inr (Or.inl ⟨?_, ?_, rfl⟩))) <;>
              first | rfl | assumption
          next a heq3 =>
            refine Or.inr (Or.inr (Or.inr (Or.inr (Or.inl ⟨?_, a, ?_, rfl⟩)))) <;>
              first | rfl | assumption
          next heq3 =>
            refine Or.inr (Or.inr (Or.inr (Or.inr (Or.inr ⟨?_, ?_, rfl⟩)))) <;>
              first | rfl | assumption

/-- A playbook whose processing entered `_spawn_vm` leaves `task_vm`
set (the handle is assigned before the retry loop, executor.py 86). -/
theorem processPlaybook_spawned_isSet (cfg : ExecCfg) (vm0 : VmState) (pb : PbScript)
    (hsp : (processPlaybook cfg vm0 pb).spawned = true) :
    (processPlaybook cfg vm0 pb).vmAfter.isSet = true := by
  rcases processPlaybook_shape cfg vm0 pb with
    h | ⟨e, h⟩ | ⟨a, hip, h⟩ | ⟨hip, ho, h⟩ | ⟨hip, a, ho, h⟩ | ⟨hip, ho, h⟩ <;>
    rw [h] at hsp ⊢
  · simp at hsp
  · simp at hsp
  · rw [runAndReport_spawned] at hsp
    simp at hsp
  · cases hb : pb.failedSpawnLeavesInstance <;> simp [hb, VmState.isSet]
  · rw [runAndReport_vmAfter]
    rfl
  · rw [runAndReport_vmAfter]
    rfl

theorem processPlaybook_no_cleanup_event (cfg : ExecCfg) (vm0 : VmState) (pb : PbScript) :
    Event.teardownCleanup ∉ (processPlaybook cfg vm0 pb).events := by
  rcases processPlaybook_shape cfg vm0 pb with
    h | ⟨e, h⟩ | ⟨a, hip, h⟩ | ⟨hip, ho, h⟩ | ⟨hip, a, ho, h⟩ | ⟨hip, ho, h⟩ <;>
    rw [h] <;> intro hmem
  · simp at hmem
  · simp at hmem
  · rcases runAndReport_mem_events _ _ _ _ _ _ _ hmem with hh | hh | ⟨rf, hh⟩ | ⟨s2, hh⟩ <;>
      simp [List.mem_replicate] at hh
  · simp [List.mem_replicate] at hmem
  · rcases runAndReport_mem_events _ _ _ _ _ _ _ hmem with hh | hh | ⟨rf, hh⟩ | ⟨s2, hh⟩ <;>
      simp [List.mem_replicate] at hh
  · rcases runAndReport_mem_events _ _ _ _ _ _ _ hmem with hh | hh | ⟨rf, hh⟩ | ⟨s2, hh⟩ <;>
      simp [List.mem_replicate] at hh

/-- The try-block itself never performs the cleanup teardown, so it can
never raise the cleanup `CheckbRemoteError` either. -/
theorem processPlaybook_no_cleanup_error_event (cfg : ExecCfg) (vm0 : VmState)
    (pb : PbScript) :
    Event.teardownCleanupError ∉ (processPlaybook cfg vm0 pb).events := by
  rcases processPlaybook_shape cfg vm0 pb with
    h | ⟨e, h⟩ | ⟨a, hip, h⟩ | ⟨hip, ho, h⟩ | ⟨hip, a, ho, h⟩ | ⟨hip, ho, h⟩ <;>
    rw [h] <;> intro hmem
  · simp at hmem
  · simp at hmem
  · rcases runAndReport_mem_events _ _ _ _ _ _ _ hmem with hh | hh | ⟨rf, hh⟩ | ⟨s2, hh⟩ <;>
      simp [List.mem_replicate] at hh
  · simp [List.mem_replicate] at hmem
  · rcases runAndReport_mem_events _ _ _ _ _ _ _ hmem with hh | hh | ⟨rf, hh⟩ | ⟨s2, hh⟩ <;>
      simp [List.mem_replicate] at hh
  · rcases runAndReport_mem_events _ _ _ _ _ _ _ hmem with hh | hh | ⟨rf, hh⟩ | ⟨s2, hh⟩ <;>
      simp [List.mem_replicate] at hh

theorem processPlaybook_no_addr_none (cfg : ExecCfg) (vm0 : VmState) (pb : PbScript)
    (hr : 1 ≤ cfg.spawn_vm_retries) :
    Event.runPlaybookCalled none ∉ (processPlaybook cfg vm0 pb).events := by
  rcases processPlaybook_shape cfg vm0 pb with
    h | ⟨e, h⟩ | ⟨a, hip, h⟩ | ⟨hip, ho, h⟩ | ⟨hip, a, ho, h⟩ | ⟨hip, ho, h⟩
  · rw [h]; intro hmem; simp at hmem
  · rw [h]; intro hmem; simp at hmem
  · rw [h]; intro hmem
    rcases runAndReport_mem_events _ _ _ _ _ _ _ hmem with hh | hh | ⟨rf, hh⟩ | ⟨s2, hh⟩ <;>
      simp [List.mem_replicate] at hh
  · rw [h]; intro hmem; simp [List.mem_replicate] at hmem
  · rw [h]; intro hmem
    rcases runAndReport_mem_events _ _ _ _ _ _ _ hmem with hh | hh | ⟨rf, hh⟩ | ⟨s2, hh⟩ <;>
      simp [List.mem_replicate] at hh
  · exact absurd ho (spawn_loop_no_none pb.attempts 0 cfg.spawn_vm_retries hr)

theorem processPlaybook_spawn_before_run (cfg : ExecCfg) (vm0 : VmState) (pb : PbScript)
    (hip : cfg.ipaddr0 = none) (x : Event)
    (hx : x ∈ (processPlaybook cfg vm0 pb).events) :
    (processPlaybook cfg vm0 pb).spawned = true := by
  rcases processPlaybook_shape cfg vm0 pb with
    h | ⟨e, h⟩ | ⟨a, hip2, h⟩ | ⟨hip2, ho, h⟩ | ⟨hip2, a, ho, h⟩ | ⟨hip2, ho, h⟩
  · rw [h] at hx; simp at hx
  · rw [h] at hx; simp at hx
  · rw [hip] at hip2; exact absurd hip2 (by simp)
  · rw [h]
  · rw [h, runAndReport_spawned]
  · rw [h, runAndReport_spawned]

theorem processPlaybook_no_reporter_unless_ok (cfg : ExecCfg) (vm0 : VmState)
    (pb : PbScript) (rf : String)
    (hres : (processPlaybook cfg vm0 pb).res ≠ .ok) :
    Event.reporterProcess rf ∉ (processPlaybook cfg vm0 pb).events := by
  rcases processPlaybook_shape cfg vm0 pb with
    h | ⟨e, h⟩ | ⟨a, hip, h⟩ | ⟨hip, ho, h⟩ | ⟨hip, a, ho, h⟩ | ⟨hip, ho, h⟩ <;>
    rw [h] at hres ⊢ <;> intro hmem
  · simp at hmem
  · simp at hmem
  · have hh := runAndReport_reporter_only_ok _ _ _ _ _ _ _ hmem hres
    simp at hh
  · simp [List.mem_replicate] at hmem
  · have hh := runAndReport_reporter_only_ok _ _ _ _ _ _ _ hmem hres
    simp [List.mem_replicate] at hh
  · have hh := runAndReport_reporter_only_ok _ _ _ _ _ _ _ hmem hres
    simp [List.mem_replicate] at hh

/-! ### Lemmas about the `except`/`finally` control flow -/

theorem exceptClause_snd (e : Exn) : (exceptClause (.raised e)).2 = e.isCheckbError := by
  unfold exceptClause
  cases e <;> simp [Exn.isInterrupt, Exn.isCheckbError]

theorem exceptClause_interrupt (e : Exn) (he : e.isInterrupt = true) :
    (exceptClause (.raised e)).1 = .toBreak := by
  unfold exceptClause
  simp [he]

theorem exceptClause_checkb (e : Exn) (he : e.isCheckbError = true)
    (hni : e.isInterrupt = false) :
    (exceptClause (.raised e)).1 = .toContinue := by
  unfold exceptClause
  simp [he, hni]

theorem exceptClause_raise_inv (res : TryResult) (e2 : Exn)
    (h : (exceptClause res).1 = .toRaise e2) :
    res = .raised e2 ∧ e2.isCheckbError = false := by
  unfold exceptClause at h
  match res with
  | .ok => simp at h
  | .raised e =>
    by_cases hi : e.isInterrupt = true
    · simp [hi] at h
    · simp [hi] at h
      by_cases hc : e.isCheckbError = true
      · simp [hc] at h
      · simp [hc] at h
        subst h
        simp only [Bool.not_eq_true] at hc
        exact ⟨rfl, hc⟩

theorem finallyClause_continue_inv (st : VmState) (nd : Bool) (p : Pending)
    (h : (finallyClause st nd p).1 = .toContinue) :
    p = .toContinue ∧ (st = .noVm ∨ (st = .vmUp ∧ nd = false)) := by
  cases st with
  | noVm => exact ⟨h, Or.inl rfl⟩
  | vmUp =>
    cases nd with
    | true => simp [finallyClause] at h
    | false => exact ⟨h, Or.inr ⟨rfl, rfl⟩⟩
  | vmGone =>
    cases nd with
    | true => simp [finallyClause] at h
    | false => simp [finallyClause] at h

theorem finallyClause_break_inv (st : VmState) (nd : Bool) (p : Pending)
    (h : (finallyClause st nd p).1 = .toBreak) :
    p = .toBreak ∨ (st.isSet = true ∧ nd = true) := by
  cases st with
  | noVm => exact Or.inl h
  | vmUp =>
    cases nd with
    | true => exact Or.inr ⟨rfl, rfl⟩
    | false => exact Or.inl h
  | vmGone =>
    cases nd with
    | true => exact Or.inr ⟨rfl, rfl⟩
    | false => simp [finallyClause] at h

theorem finallyClause_raise_inv (st : VmState) (nd : Bool) (p : Pending) (e : Exn)
    (h : (finallyClause st nd p).1 = .toRaise e) :
    p = .toRaise e ∨ (st = .vmGone ∧ nd = false ∧ e = .checkbRemote) := by
  cases st with
  | noVm => exact Or.inl h
  | vmUp =>
    cases nd with
    | true => simp [finallyClause] at h
    | false => exact Or.inl h
  | vmGone =>
    cases nd with
    | true => simp [finallyClause] at h
    | false =>
      have h2 : Pending.toRaise .checkbRemote = Pending.toRaise e := h
      injection h2 with h3
      exact Or.inr ⟨rfl, rfl, h3.symm⟩

theorem finallyClause_events_mem (st : VmState) (nd : Bool) (p : Pending) (x : Event)
    (hx : x ∈ (finallyClause st nd p).2.1) :
    x = .teardownCleanup ∨ x = .teardownCleanupError := by
  cases st <;> cases nd <;> simp [finallyClause] at hx <;> simp [hx]

/-- The failed-teardown event arises exactly from a stale (`vmGone`)
handle with `no-destroy` unset, and then the `finally` raises
`CheckbRemoteError`. -/
theorem finallyClause_err_event (st : VmState) (nd : Bool) (p : Pending)
    (hx : Event.teardownCleanupError ∈ (finallyClause st nd p).2.1) :
    st = .vmGone ∧ nd = false ∧ (finallyClause st nd p).1 = .toRaise .checkbRemote := by
  cases st <;> cases nd <;> simp [finallyClause] at hx ⊢

theorem finallyClause_no_destroy (st : VmState) (p : Pending) :
    (finallyClause st true p).2.1 = [] := by
  cases st <;> rfl

/-! ### Lemmas about the playbook loop -/

/-- Every record produced by the loop is the record of processing some
playbook of the list at some `task_vm` state, completed by the
`finally` block's teardown events. -/
theorem execGo_mem_records (cfg : ExecCfg) (pbs : List PbScript) (vm0 : VmState)
    (r : PbRecord) (hr : r ∈ (execGo cfg vm0 pbs).2.1) :
    ∃ vmp pb, pb ∈ pbs ∧
      r = ⟨pb.name, (processPlaybook cfg vmp pb).res, (processPlaybook cfg vmp pb).spawned,
           (processPlaybook cfg vmp pb).vmAfter.isSet,
           (processPlaybook cfg vmp pb).events ++
             (finallyClause (processPlaybook cfg vmp pb).vmAfter cfg.no_destroy
               (exceptClause (processPlaybook cfg vmp pb).res).1).2.1⟩ := by
  induction pbs generalizing vm0 with
  | nil => simp [execGo] at hr
  | cons pb rest ih =>
    simp only [execGo] at hr
    rcases hfp : (finallyClause (processPlaybook cfg vm0 pb).vmAfter cfg.no_destroy
        (exceptClause (processPlaybook cfg vm0 pb).res).1).1 with _ | _ | e2 <;>
      simp only [hfp] at hr
    · rcases List.mem_cons.mp hr with h | h
      · exact ⟨vm0, pb, List.mem_cons_self _ _, h⟩
      · obtain ⟨vmp, pb2, hmem, heq⟩ := ih (finallyClause (processPlaybook cfg vm0 pb).vmAfter
          cfg.no_destroy (exceptClause (processPlaybook cfg vm0 pb).res).1).2.2 h
        exact ⟨vmp, pb2, List.mem_cons_of_mem _ hmem, heq⟩
    · rcases List.mem_singleton.mp hr with h
      exact ⟨vm0, pb, List.mem_cons_self _ _, h⟩
    · rcases List.mem_singleton.mp hr with h
      exact ⟨vm0, pb, List.mem_cons_self _ _, h⟩

/-- A nonempty playbook list always yields at least one record. -/
theorem execGo_records_nonempty (cfg : ExecCfg) (pb : PbScript) (rest : List PbScript)
    (vm0 : VmState) : (execGo cfg vm0 (pb :: rest)).2.1 ≠ [] := by
  simp only [execGo]
  rcases hfp : (finallyClause (processPlaybook cfg vm0 pb).vmAfter cfg.no_destroy
      (exceptClause (processPlaybook cfg vm0 pb).res).1).1 with _ | _ | e2 <;>
    simp only [hfp] <;> simp

/-- The records are, in order, those of a prefix of the playbook list. -/
theorem execGo_records_names (cfg : ExecCfg) (pbs : List PbScript) (vm0 : VmState) :
    (execGo cfg vm0 pbs).2.1.map PbRecord.name =
      (pbs.take (execGo cfg vm0 pbs).2.1.length).map PbScript.name := by
  induction pbs generalizing vm0 with
  | nil => rfl
  | cons pb rest ih =>
    simp only [execGo]
    rcases hfp : (finallyClause (processPlaybook cfg vm0 pb).vmAfter cfg.no_destroy
        (exceptClause (processPlaybook cfg vm0 pb).res).1).1 with _ | _ | e2 <;>
      simp only [hfp]
    · simp [ih]
    · simp
    · simp

/-- A record holding an error of the Checkb taxonomy has its playbook
name appended to the `failed` list. -/
theorem execGo_checkb_failed (cfg : ExecCfg) (pbs : List PbScript) (vm0 : VmState)
    (i : Nat) (r : PbRecord) (e : Exn)
    (hr : (execGo cfg vm0 pbs).2.1[i]? = some r)
    (hres : r.res = .raised e) (he : e.isCheckbError = true) :
    r.name ∈ (execGo cfg vm0 pbs).1 := by
  induction pbs generalizing vm0 i with
  | nil => simp [execGo] at hr
  | cons pb rest ih =>
    simp only [execGo] at hr ⊢
    rcases hfp : (finallyClause (processPlaybook cfg vm0 pb).vmAfter cfg.no_destroy
        (exceptClause (processPlaybook cfg vm0 pb).res).1).1 with _ | _ | e2 <;>
      simp only [hfp] at hr ⊢
    · match i with
      | 0 =>
        simp at hr
        subst hr
        have hres2 : (processPlaybook cfg vm0 pb).res = .raised e := by
          simpa using hres
        have happ : (exceptClause (processPlaybook cfg vm0 pb).res).2 = true := by
          rw [hres2, exceptClause_snd, he]
        simp [happ]
      | j + 1 =>
        simp only [List.getElem?_cons_succ] at hr
        have := ih _ j hr
        simp [this]
    · match i with
      | 0 =>
        simp at hr
        subst hr
        have hres2 : (processPlaybook cfg vm0 pb).res = .raised e := by
          simpa using hres
        have happ : (exceptClause (processPlaybook cfg vm0 pb).res).2 = true := by
          rw [hres2, exceptClause_snd, he]
        simp [happ]
      | j + 1 => simp at hr
    · match i with
      | 0 =>
        simp at hr
        subst hr
        have hres2 : (processPlaybook cfg vm0 pb).res = .raised e := by
          simpa using hres
        have happ : (exceptClause (processPlaybook cfg vm0 pb).res).2 = true := by
          rw [hres2, exceptClause_snd, he]
        simp [happ]
      | j + 1 => simp at hr

/-- An interrupt record is always the last record: either the `break`
survives the `finally` block, or a failing cleanup teardown replaces it
with a propagating exception — both end the loop. -/
theorem execGo_interrupt_halts (cfg : ExecCfg) (pbs : List PbScript) (vm0 : VmState)
    (i : Nat) (r : PbRecord) (s : Nat)
    (hr : (execGo cfg vm0 pbs).2.1[i]? = some r)
    (hres : r.res = .raised (.checkbInterrupt s)) :
    (execGo cfg vm0 pbs).2.1.length = i + 1 := by
  induction pbs generalizing vm0 i with
  | nil => simp [execGo] at hr
  | cons pb rest ih =>
    simp only [execGo] at hr ⊢
    rcases hfp : (finallyClause (processPlaybook cfg vm0 pb).vmAfter cfg.no_destroy
        (exceptClause (processPlaybook cfg vm0 pb).res).1).1 with _ | _ | e2 <;>
      simp only [hfp] at hr ⊢
    · match i with
      | 0 =>
        simp at hr
        subst hr
        have hres2 : (processPlaybook cfg vm0 pb).res = .raised (.checkbInterrupt s) := by
          simpa using hres
        have hp0 : (exceptClause (processPlaybook cfg vm0 pb).res).1 = .toBreak := by
          rw [hres2]
          exact exceptClause_interrupt _ rfl
        have hcont := finallyClause_continue_inv _ _ _ hfp
        rw [hp0] at hcont
        exact absurd hcont.1 (by simp)
      | j + 1 =>
        simp only [List.getElem?_cons_succ] at hr
        have := ih _ j hr
        simp [this]
    · match i with
      | 0 => simp
      | j + 1 => simp at hr
    · match i with
      | 0 => simp
      | j + 1 => simp at hr

/-- A record holding an ordinary (non-interrupt) Checkb error lets the
loop continue, provided the `finally` block neither takes the
`no-destroy` early exit nor aborts through a failed cleanup teardown. -/
theorem execGo_checkb_continues (cfg : ExecCfg) (pbs : List PbScript) (vm0 : VmState)
    (i : Nat) (r : PbRecord) (e : Exn)
    (hr : (execGo cfg vm0 pbs).2.1[i]? = some r)
    (hres : r.res = .raised e) (he : e.isCheckbError = true)
    (hni : e.isInterrupt = false)
    (hnd : cfg.no_destroy = false ∨ r.vmActive = false)
    (hnoerr : Event.teardownCleanupError ∉ r.events)
    (hlen : i + 1 < pbs.length) :
    i + 1 < (execGo cfg vm0 pbs).2.1.length := by
  induction pbs generalizing vm0 i with
  | nil => simp [execGo] at hr
  | cons pb rest ih =>
    simp only [execGo] at hr ⊢
    rcases hfp : (finallyClause (processPlaybook cfg vm0 pb).vmAfter cfg.no_destroy
        (exceptClause (processPlaybook cfg vm0 pb).res).1).1 with _ | _ | e2 <;>
      simp only [hfp] at hr ⊢
    · match i with
      | 0 =>
        have hne : rest ≠ [] := by
          intro hcon
          subst hcon
          simp at hlen
        match rest with
        | pb2 :: rest2 =>
          have hnonempty := execGo_records_nonempty cfg pb2 rest2
            (finallyClause (processPlaybook cfg vm0 pb).vmAfter cfg.no_destroy
              (exceptClause (processPlaybook cfg vm0 pb).res).1).2.2
          simp only [List.length_cons]
          have hlen2 : 0 < (execGo cfg (finallyClause (processPlaybook cfg vm0 pb).vmAfter
              cfg.no_destroy (exceptClause (processPlaybook cfg vm0 pb).res).1).2.2
              (pb2 :: rest2)).2.1.length := List.length_pos.mpr hnonempty
          omega
      | j + 1 =>
        simp only [List.getElem?_cons_succ] at hr
        have hlen2 : j + 1 < rest.length := by simpa using Nat.lt_of_succ_lt_succ hlen
        have := ih _ j hr hlen2
        simpa using Nat.succ_lt_succ this
    · match i with
      | 0 =>
        simp at hr
        subst hr
        have hres2 : (processPlaybook cfg vm0 pb).res = .raised e := by
          simpa using hres
        have hp0 : (exceptClause (processPlaybook cfg vm0 pb).res).1 = .toContinue := by
          rw [hres2]
          exact exceptClause_checkb e he hni
        rcases finallyClause_break_inv _ _ _ hfp with hcon | ⟨hset, hnd2⟩
        · rw [hp0] at hcon
          exact absurd hcon (by simp)
        · rcases hnd with h | h
          · rw [hnd2] at h
            exact absurd h (by simp)
          · have h2 : (processPlaybook cfg vm0 pb).vmAfter.isSet = false := by
              simpa using h
            rw [hset] at h2
            exact absurd h2 (by simp)
      | j + 1 => simp at hr
    · match i with
      | 0 =>
        simp at hr
        subst hr
        rcases finallyClause_raise_inv _ _ _ _ hfp with hp | ⟨hst, hnd2, he2⟩
        · obtain ⟨hres3, hcf⟩ := exceptClause_raise_inv _ _ hp
          have hres2 : (processPlaybook cfg vm0 pb).res = .raised e := by
            simpa using hres
          rw [hres2] at hres3
          injection hres3 with hee
          rw [← hee] at hcf
          rw [he] at hcf
          exact absurd hcf (by simp)
        · refine absurd ?_ hnoerr
          have hmem2 : Event.teardownCleanupError ∈
              (finallyClause (processPlaybook cfg vm0 pb).vmAfter cfg.no_destroy
                (exceptClause (processPlaybook cfg vm0 pb).res).1).2.1 := by
            rw [hst, hnd2]
            simp [finallyClause]
          exact List.mem_append.mpr (Or.inr hmem2)
      | j + 1 => simp at hr

/-- Like `execGo_checkb_continues`, for loops that ended normally: in a
run whose loop ended without a propagating exception, no cleanup
teardown can have failed, so the side condition disappears. -/
theorem execGo_checkb_continues_finished (cfg : ExecCfg) (pbs : List PbScript)
    (vm0 : VmState) (i : Nat) (r : PbRecord) (e : Exn)
    (hend : (execGo cfg vm0 pbs).2.2 = .finishedLoop)
    (hr : (execGo cfg vm0 pbs).2.1[i]? = some r)
    (hres : r.res = .raised e) (he : e.isCheckbError = true)
    (hni : e.isInterrupt = false)
    (hnd : cfg.no_destroy = false ∨ r.vmActive = false)
    (hlen : i + 1 < pbs.length) :
    i + 1 < (execGo cfg vm0 pbs).2.1.length := by
  induction pbs generalizing vm0 i with
  | nil => simp [execGo] at hr
  | cons pb rest ih =>
    simp only [execGo] at hend hr ⊢
    rcases hfp : (finallyClause (processPlaybook cfg vm0 pb).vmAfter cfg.no_destroy
        (exceptClause (processPlaybook cfg vm0 pb).res).1).1 with _ | _ | e2 <;>
      simp only [hfp] at hend hr ⊢
    · match i with
      | 0 =>
        have hne : rest ≠ [] := by
          intro hcon
          subst hcon
          simp at hlen
        match rest with
        | pb2 :: rest2 =>
          have hnonempty := execGo_records_nonempty cfg pb2 rest2
            (finallyClause (processPlaybook cfg vm0 pb).vmAfter cfg.no_destroy
              (exceptClause (processPlaybook cfg vm0 pb).res).1).2.2
          simp only [List.length_cons]
          have hlen2 : 0 < (execGo cfg (finallyClause (processPlaybook cfg vm0 pb).vmAfter
              cfg.no_destroy (exceptClause (processPlaybook cfg vm0 pb).res).1).2.2
              (pb2 :: rest2)).2.1.length := List.length_pos.mpr hnonempty
          omega
      | j + 1 =>
        simp only [List.getElem?_cons_succ] at hr
        have hlen2 : j + 1 < rest.length := by simpa using Nat.lt_of_succ_lt_succ hlen
        have := ih _ j hend hr hlen2
        simpa using Nat.succ_lt_succ this
    · match i with
      | 0 =>
        simp at hr
        subst hr
        have hres2 : (processPlaybook cfg vm0 pb).res = .raised e := by
          simpa using hres
        have hp0 : (exceptClause (processPlaybook cfg vm0 pb).res).1 = .toContinue := by
          rw [hres2]
          exact exceptClause_checkb e he hni
        rcases finallyClause_break_inv _ _ _ hfp with hcon | ⟨hset, hnd2⟩
        · rw [hp0] at hcon
          exact absurd hcon (by simp)
        · rcases hnd with h | h
          · rw [hnd2] at h
            exact absurd h (by simp)
          · have h2 : (processPlaybook cfg vm0 pb).vmAfter.isSet = false := by
              simpa using h
            rw [hset] at h2
            exact absurd h2 (by simp)
      | j + 1 => simp at hr
    · exact absurd hend (by simp)

/-- A failed cleanup teardown ends the loop at once: its record is the
last one and the loop ends with the propagating `CheckbRemoteError`. -/
theorem execGo_teardown_error_last (cfg : ExecCfg) (pbs : List PbScript)
    (vm0 : VmState) (i : Nat) (r : PbRecord)
    (hr : (execGo cfg vm0 pbs).2.1[i]? = some r)
    (herr : Event.teardownCleanupError ∈ r.events) :
    (execGo cfg vm0 pbs).2.1.length = i + 1 ∧
    (execGo cfg vm0 pbs).2.2 = .raisedOther .checkbRemote := by
  induction pbs generalizing vm0 i with
  | nil => simp [execGo] at hr
  | cons pb rest ih =>
    simp only [execGo] at hr ⊢
    rcases hfp : (finallyClause (processPlaybook cfg vm0 pb).vmAfter cfg.no_destroy
        (exceptClause (processPlaybook cfg vm0 pb).res).1).1 with _ | _ | e2 <;>
      simp only [hfp] at hr ⊢
    · match i with
      | 0 =>
        simp at hr
        subst hr
        have herr2 : Event.teardownCleanupError ∈
            (processPlaybook cfg vm0 pb).events ++
              (finallyClause (processPlaybook cfg vm0 pb).vmAfter cfg.no_destroy
                (exceptClause (processPlaybook cfg vm0 pb).res).1).2.1 := by
          simpa using herr
        rcases List.mem_append.mp herr2 with hh | hh
        · exact absurd hh (processPlaybook_no_cleanup_error_event cfg vm0 pb)
        · obtain ⟨hst, hnd2, hfc⟩ := finallyClause_err_event _ _ _ hh
          rw [hfp] at hfc
          exact absurd hfc (by simp)
      | j + 1 =>
        simp only [List.getElem?_cons_succ] at hr
        have := ih _ j hr
        exact ⟨by simp [this.1], this.2⟩
    · match i with
      | 0 =>
        simp at hr
        subst hr
        have herr2 : Event.teardownCleanupError ∈
            (processPlaybook cfg vm0 pb).events ++
              (finallyClause (processPlaybook cfg vm0 pb).vmAfter cfg.no_destroy
                (exceptClause (processPlaybook cfg vm0 pb).res).1).2.1 := by
          simpa using herr
        rcases List.mem_append.mp herr2 with hh | hh
        · exact absurd hh (processPlaybook_no_cleanup_error_event cfg vm0 pb)
        · obtain ⟨hst, hnd2, hfc⟩ := finallyClause_err_event _ _ _ hh
          rw [hfp] at hfc
          exact absurd hfc (by simp)
      | j + 1 => simp at hr
    · match i with
      | 0 =>
        simp at hr
        subst hr
        have herr2 : Event.teardownCleanupError ∈
            (processPlaybook cfg vm0 pb).events ++
              (finallyClause (processPlaybook cfg vm0 pb).vmAfter cfg.no_destroy
                (exceptClause (processPlaybook cfg vm0 pb).res).1).2.1 := by
          simpa using herr
        rcases List.mem_append.mp herr2 with hh | hh
        · exact absurd hh (processPlaybook_no_cleanup_error_event cfg vm0 pb)
        · obtain ⟨hst, hnd2, hfc⟩ := finallyClause_err_event _ _ _ hh
          rw [hfp] at hfc
          injection hfc with he2
          exact ⟨by simp, by rw [he2]⟩
      | j + 1 => simp at hr

/-- Under `no-destroy`, a record with an active VM handle is the last
record: the `finally` block `break`s out of the loop. -/
theorem execGo_no_destroy_halts (cfg : ExecCfg) (pbs : List PbScript) (vm0 : VmState)
    (i : Nat) (r : PbRecord)
    (hnd : cfg.no_destroy = true)
    (hr : (execGo cfg vm0 pbs).2.1[i]? = some r)
    (hvm : r.vmActive = true) :
    (execGo cfg vm0 pbs).2.1.length = i + 1 := by
  induction pbs generalizing vm0 i with
  | nil => simp [execGo] at hr
  | cons pb rest ih =>
    simp only [execGo] at hr ⊢
    rcases hfp : (finallyClause (processPlaybook cfg vm0 pb).vmAfter cfg.no_destroy
        (exceptClause (processPlaybook cfg vm0 pb).res).1).1 with _ | _ | e2 <;>
      simp only [hfp] at hr ⊢
    · match i with
      | 0 =>
        simp at hr
        subst hr
        have hvm2 : (processPlaybook cfg vm0 pb).vmAfter.isSet = true := by
          simpa using hvm
        obtain ⟨hp0, hst⟩ := finallyClause_continue_inv _ _ _ hfp
        rcases hst with h | ⟨h, hnd2⟩
        · rw [h] at hvm2
          exact absurd hvm2 (by simp [VmState.isSet])
        · rw [hnd] at hnd2
          exact absurd hnd2 (by simp)
      | j + 1 =>
        simp only [List.getElem?_cons_succ] at hr
        have := ih _ j hr
        simp [this]
    · match i with
      | 0 => simp
      | j + 1 => simp at hr
    · match i with
      | 0 => simp
      | j + 1 => simp at hr

/-- Projection: `execute` returns the loop's record list. -/
theorem execute_records (cfg : ExecCfg) (pbs : List PbScript) :
    (execute cfg pbs).records = (execGo cfg .noVm pbs).2.1 := by
  match pbs with
  | [] => rfl
  | pb :: rest =>
    simp only [execute, List.isEmpty_cons, Bool.false_eq_true, if_false]
    rcases hend : (execGo cfg .noVm (pb :: rest)).2.2 with _ | e <;>
      simp only [hend] <;> rfl

/-- Projection: `execute` returns the loop's failed list. -/
theorem execute_failedNames (cfg : ExecCfg) (pbs : List PbScript) :
    (execute cfg pbs).failedNames = (execGo cfg .noVm pbs).1 := by
  match pbs with
  | [] => rfl
  | pb :: rest =>
    simp only [execute, List.isEmpty_cons, Bool.false_eq_true, if_false]
    rcases hend : (execGo cfg .noVm (pb :: rest)).2.2 with _ | e <;>
      simp only [hend] <;> rfl

/-- Inversion for a normally-finished run. -/
theorem execute_finished_inv (cfg : ExecCfg) (pbs : List PbScript)
    (b : Bool) (f : List String) (rs : List PbRecord)
    (h : execute cfg pbs = .finished b f rs) :
    b = (execGo cfg .noVm pbs).1.isEmpty ∧ f = (execGo cfg .noVm pbs).1 ∧
    rs = (execGo cfg .noVm pbs).2.1 ∧
    (execGo cfg .noVm pbs).2.2 = .finishedLoop := by
  match pbs with
  | [] => simp [execute] at h
  | pb :: rest =>
    simp only [execute, List.isEmpty_cons, Bool.false_eq_true, if_false] at h
    rcases hend : (execGo cfg .noVm (pb :: rest)).2.2 with _ | e <;>
      simp only [hend] at h
    · cases h
      exact ⟨rfl, rfl, rfl, rfl⟩
    · cases h

/-- A loop that ended in a propagating exception makes `execute` end in
the `raised` outcome with that exception. -/
theorem execute_raised_of_end (cfg : ExecCfg) (pbs : List PbScript) (e : Exn)
    (hend : (execGo cfg .noVm pbs).2.2 = .raisedOther e) (hne : pbs ≠ []) :
    execute cfg pbs = .raised e (execGo cfg .noVm pbs).1 (execGo cfg .noVm pbs).2.1 := by
  match pbs with
  | [] => exact absurd rfl hne
  | pb :: rest =>
    simp only [execute, List.isEmpty_cons, Bool.false_eq_true, if_false, hend]

/-! ### Claim theorems for the execution loop -/

/-- Claim C3, counterexample.  The claim says an ordinary
(non-interrupt) Checkb error is caught, recorded, and the loop
continues with the next playbook.  With `no-destroy` requested and a
VM spawned, the `finally` block `break`s even after an ordinary error:
here playbook 1 fails with a plain execution error, yet of the two
playbooks only one is processed and the loop halts. -/
theorem c3_error_isolation_counterexample :
    execute cfgNoDestroy [pbRunFails "tests.yml", pbGood "tests_2.yml"] =
      .finished false ["tests.yml"]
        [⟨"tests.yml", .raised .checkbGeneric, true, true,
          [.runPlaybookCalled (some "192.168.122.58")]⟩] ∧
    [pbRunFails "tests.yml", pbGood "tests_2.yml"].length = 2 ∧
    (Exn.checkbGeneric.isCheckbError = true ∧ Exn.checkbGeneric.isInterrupt = false) := by
  refine ⟨by decide, rfl, by decide⟩

/-- Claim C3, amended.  In `execute`'s loop, every error of the Checkb
taxonomy is caught at the loop boundary and the playbook is appended to
the failed list.  A non-interrupt error lets the loop continue with the
next playbook *provided* the `finally` block's cleanup passes: not the
`no-destroy` early exit (an active handle with `no-destroy` halts the
loop, see C9), and not a failing cleanup teardown.  When the cleanup
teardown does fail — `task_vm` holds a handle whose instance no longer
exists, a stale handle from an earlier playbook's teardown (`task_vm`
is never reset to `None`) or a never-provisioned machine at retry
bound 0 — the `CheckbRemoteError` from `teardown` (vm.py 170) replaces
the pending control flow and aborts the entire run.  An interrupt
records its playbook as failed and always terminates the loop
immediately. -/
theorem c3_error_isolation (cfg : ExecCfg) (pbs : List PbScript)
    (i : Nat) (r : PbRecord)
    (hr : (execute cfg pbs).records[i]? = some r) (e : Exn)
    (hres : r.res = .raised e) (he : e.isCheckbError = true) :
    r.name ∈ (execute cfg pbs).failedNames ∧
    (e.isInterrupt = false →
      (cfg.no_destroy = false ∨ r.vmActive = false) →
      Event.teardownCleanupError ∉ r.events →
      i + 1 < pbs.length → i + 1 < (execute cfg pbs).records.length) ∧
    (Event.teardownCleanupError ∈ r.events →
      (execute cfg pbs).records.length = i + 1 ∧
      ∃ f2 rs2, execute cfg pbs = .raised .checkbRemote f2 rs2) ∧
    (∀ s, e = .checkbInterrupt s → (execute cfg pbs).records.length = i + 1) := by
  rw [execute_records] at hr
  rw [execute_records, execute_failedNames]
  refine ⟨execGo_checkb_failed cfg pbs .noVm i r e hr hres he, ?_, ?_, ?_⟩
  · intro hni hnd hnoerr hlen
    exact execGo_checkb_continues cfg pbs .noVm i r e hr hres he hni hnd hnoerr hlen
  · intro herr
    have hlast := execGo_teardown_error_last cfg pbs .noVm i r hr herr
    refine ⟨hlast.1, ?_⟩
    have hne : pbs ≠ [] := by
      intro hcon
      subst hcon
      simp [execGo] at hr
    exact ⟨_, _, execute_raised_of_end cfg pbs .checkbRemote hlast.2 hne⟩
  · intro s hs
    subst hs
    exact execGo_interrupt_halts cfg pbs .noVm i r s hr hres

/-- Witness for `c3_error_isolation`, exercising both halves.  First, a
disposable-mode run whose second playbook fails its syntax check while
`task_vm` is a stale handle from the first playbook's teardown: the
failure is recorded, the record is the last one, and the run aborts
with `CheckbRemoteError` from the failing cleanup teardown.  Second, a
local-mode run whose first playbook fails with an execution error and
the loop continues: both playbooks are processed. -/
theorem c3_error_isolation_witness :
    ("tests_2.yml" ∈ ["tests_2.yml"] ∧ (2 : Nat) = 1 + 1 ∧
      ∃ f2 rs2, execute cfgLibvirt [pbGood "tests.yml", pbBadSyntax "tests_2.yml"] =
        .raised .checkbRemote f2 rs2) ∧
    0 + 1 < 2 := by
  constructor
  · have h := c3_error_isolation cfgLibvirt [pbGood "tests.yml", pbBadSyntax "tests_2.yml"]
      1 ⟨"tests_2.yml", .raised .checkbPlaybook, false, true, [.teardownCleanupError]⟩
      (by decide) .checkbPlaybook (by decide) (by decide)
    have h3 := h.2.2.1 (by decide)
    exact ⟨h.1, h3.1, h3.2⟩
  · have h := c3_error_isolation cfgLocal [pbRunFails "tests.yml", pbGood "tests_2.yml"]
      0 ⟨"tests.yml", .raised .checkbGeneric, false, false,
        [.runPlaybookCalled (some "127.0.0.1")]⟩
      (by decide) .checkbGeneric (by decide) (by decide)
    exact h.2.1 (by decide) (Or.inl rfl) (by decide) (by decide)

/-- Claim C4, confirmed.  Function `execute` returns `not failed`: the
return value is `true` iff the failed list is empty.  Every error of
the recognized taxonomy — `CheckbPlaybookError` from the syntax check
or the generic-task guard, the generic `CheckbError` from a non-zero
playbook run, `CheckbDirectiveError` from missing results,
`CheckbMinionError` from exhausted spawning, and `CheckbInterruptError`
— puts its playbook on the failed list, forcing a `false` return; an
interrupt always records its playbook as failed before breaking, so
"no interruption" is subsumed by "no playbook recorded as failed". -/
theorem c4_execute_retval (cfg : ExecCfg) (pbs : List PbScript)
    (b : Bool) (f : List String) (rs : List PbRecord)
    (h : execute cfg pbs = .finished b f rs) :
    ((b = true) ↔ f = []) ∧
    (∀ (i : Nat) (r : PbRecord), rs[i]? = some r →
      ∀ e, r.res = .raised e → e.isCheckbError = true →
      r.name ∈ f ∧ b = false) := by
  obtain ⟨hb, hf, hrs, hend⟩ := execute_finished_inv cfg pbs b f rs h
  subst hf
  subst hrs
  constructor
  · rw [hb]
    exact ⟨fun hh => List.isEmpty_iff.mp hh, fun hh => by simp [hh]⟩
  · intro i r hr e hres he
    have hmem := execGo_checkb_failed cfg pbs .noVm i r e hr hres he
    refine ⟨hmem, ?_⟩
    rw [hb]
    rcases hemp : (execGo cfg .noVm pbs).1 with _ | ⟨x, xs⟩
    · rw [hemp] at hmem
      simp at hmem
    · simp

/-- Witness for `c4_execute_retval`: one playbook whose run exits
non-zero; the run returns `false` and the playbook is in the failed
list. -/
theorem c4_execute_retval_witness :
    ((false = true) ↔ (["tests.yml"] : List String) = []) ∧
    "tests.yml" ∈ ["tests.yml"] ∧ false = false := by
  have h := c4_execute_retval cfgLocal [pbRunFails "tests.yml"]
    false ["tests.yml"]
    [⟨"tests.yml", .raised .checkbGeneric, false, false,
      [.runPlaybookCalled (some "127.0.0.1")]⟩] (by decide)
  have h2 := h.2 0
    ⟨"tests.yml", .raised .checkbGeneric, false, false,
      [.runPlaybookCalled (some "127.0.0.1")]⟩
    (by decide) .checkbGeneric (by decide) (by decide)
  exact ⟨h.1, h2.1, h2.2⟩

/-- Claim C5, counterexample.  The claim says `_run_playbook` is never
invoked with an address of `None`, for every configuration including
every spawn retry bound.  With `spawn_vm_retries = 0` the `while` loop
of `_spawn_vm` never runs, the function returns Python `None`, and
`execute` passes that `None` straight to `_run_playbook`.  (The
never-provisioned handle then also makes the cleanup teardown raise
`CheckbRemoteError`, so the run aborts after the playbook — the
claim-refuting event is the `None` invocation, which precedes it.) -/
theorem c5_address_counterexample :
    execute cfgZeroRetries [pbGood "tests.yml"] =
      .raised .checkbRemote []
        [⟨"tests.yml", .ok, true, true,
          [.runPlaybookCalled none,
           .reporterProcess "/var/artifacts/tests.yml/checkb/results.yml",
           .sentinelCreated "/var/artifacts/tests.yml/checkb/results.yml.reported_ok",
           .teardownCleanupError]⟩] ∧
    Event.runPlaybookCalled none ∈
      [Event.runPlaybookCalled none,
       .reporterProcess "/var/artifacts/tests.yml/checkb/results.yml",
       .sentinelCreated "/var/artifacts/tests.yml/checkb/results.yml.reported_ok",
       .teardownCleanupError] := by
  constructor
  · decide
  · decide

/-- Claim C5, amended.  Whenever the configured spawn retry bound is at
least 1 (the default is 3), `_run_playbook` is never invoked with an
unset address: every recorded invocation carries a concrete address,
and in disposable mode (no pre-resolved address) a VM spawn always
precedes any invocation. -/
theorem c5_address_resolved (cfg : ExecCfg) (pbs : List PbScript)
    (hr1 : 1 ≤ cfg.spawn_vm_retries) :
    (∀ r ∈ (execute cfg pbs).records, Event.runPlaybookCalled none ∉ r.events) ∧
    (cfg.ipaddr0 = none → ∀ r ∈ (execute cfg pbs).records, ∀ a,
      Event.runPlaybookCalled a ∈ r.events → r.spawned = true) := by
  rw [execute_records]
  constructor
  · intro r hmem hin
    obtain ⟨vmp, pb, hpb, rfl⟩ := execGo_mem_records cfg pbs .noVm r hmem
    have hin2 : Event.runPlaybookCalled none ∈
        (processPlaybook cfg vmp pb).events ++
          (finallyClause (processPlaybook cfg vmp pb).vmAfter cfg.no_destroy
            (exceptClause (processPlaybook cfg vmp pb).res).1).2.1 := by
      simpa using hin
    rcases List.mem_append.mp hin2 with hh | hh
    · exact processPlaybook_no_addr_none cfg vmp pb hr1 hh
    · rcases finallyClause_events_mem _ _ _ _ hh with h1 | h1 <;> simp at h1
  · intro hip r hmem a hin
    obtain ⟨vmp, pb, hpb, rfl⟩ := execGo_mem_records cfg pbs .noVm r hmem
    have hin2 : Event.runPlaybookCalled a ∈
        (processPlaybook cfg vmp pb).events ++
          (finallyClause (processPlaybook cfg vmp pb).vmAfter cfg.no_destroy
            (exceptClause (processPlaybook cfg vmp pb).res).1).2.1 := by
      simpa using hin
    rcases List.mem_append.mp hin2 with hh | hh
    · have := processPlaybook_spawn_before_run cfg vmp pb hip _ hh
      simpa using this
    · rcases finallyClause_events_mem _ _ _ _ hh with h1 | h1 <;> simp at h1

/-- Witness for `c5_address_resolved`: disposable mode with the default
retry bound; the single recorded invocation carries the spawned VM's
address, never `None`, and the spawn preceded it. -/
theorem c5_address_resolved_witness :
    Event.runPlaybookCalled none ∉
      [Event.runPlaybookCalled (some "192.168.122.58"),
       .reporterProcess "/var/artifacts/tests.yml/checkb/results.yml",
       .sentinelCreated "/var/artifacts/tests.yml/checkb/results.yml.reported_ok",
       .teardownCleanup] ∧
    (true : Bool) = true := by
  have h := c5_address_resolved cfgLibvirt [pbGood "tests.yml"] (by decide)
  refine ⟨?_, ?_⟩
  · have := h.1
      ⟨"tests.yml", .ok, true, true,
        [.runPlaybookCalled (some "192.168.122.58"),
         .reporterProcess "/var/artifacts/tests.yml/checkb/results.yml",
         .sentinelCreated "/var/artifacts/tests.yml/checkb/results.yml.reported_ok",
         .teardownCleanup]⟩ (by decide)
    exact this
  · have := h.2 rfl
      ⟨"tests.yml", .ok, true, true,
        [.runPlaybookCalled (some "192.168.122.58"),
         .reporterProcess "/var/artifacts/tests.yml/checkb/results.yml",
         .sentinelCreated "/var/artifacts/tests.yml/checkb/results.yml.reported_ok",
         .teardownCleanup]⟩ (by decide)
      (some "192.168.122.58") (by decide)
    exact this

/-- Claim C9, confirmed.  With `no-destroy` requested: no cleanup
teardown of the spawned VM is ever invoked — neither a successful one
nor a failing attempt (the teardowns inside the spawn retry loop
concern partially-created instances that never finished provisioning,
not the spawned VM) — and the loop halts immediately after the
playbook that spawned the VM, even when further playbooks remain. -/
theorem c9_no_destroy (cfg : ExecCfg) (pbs : List PbScript)
    (hnd : cfg.no_destroy = true) :
    (∀ r ∈ (execute cfg pbs).records, Event.teardownCleanup ∉ r.events) ∧
    (∀ b f rs, execute cfg pbs = .finished b f rs →
      ∀ (i : Nat) (r : PbRecord), rs[i]? = some r → r.spawned = true →
      rs.length = i + 1) := by
  constructor
  · rw [execute_records]
    intro r hmem hin
    obtain ⟨vmp, pb, hpb, rfl⟩ := execGo_mem_records cfg pbs .noVm r hmem
    have hin2 : Event.teardownCleanup ∈
        (processPlaybook cfg vmp pb).events ++
          (finallyClause (processPlaybook cfg vmp pb).vmAfter cfg.no_destroy
            (exceptClause (processPlaybook cfg vmp pb).res).1).2.1 := by
      simpa using hin
    rw [hnd, finallyClause_no_destroy] at hin2
    simp at hin2
    exact processPlaybook_no_cleanup_event cfg vmp pb hin2
  · intro b f rs h i r hr hsp
    obtain ⟨hb, hf, hrs, hend⟩ := execute_finished_inv cfg pbs b f rs h
    subst hrs
    have hmem : r ∈ (execGo cfg .noVm pbs).2.1 := by
      obtain ⟨hlt, heq⟩ := List.getElem?_eq_some.mp hr
      exact heq ▸ List.getElem_mem hlt
    obtain ⟨vmp, pb, hpb, hre⟩ := execGo_mem_records cfg pbs .noVm r hmem
    have hvm : r.vmActive = true := by
      rw [hre]
      have hsp2 : (processPlaybook cfg vmp pb).spawned = true := by
        rw [hre] at hsp
        simpa using hsp
      simpa using processPlaybook_spawned_isSet cfg vmp pb hsp2
    exact execGo_no_destroy_halts cfg pbs .noVm i r hnd hr hvm

/-- Witness for `c9_no_destroy`: `no-destroy` with two playbooks; the
first spawns a VM, its record shows no cleanup teardown, and the loop
halts after it (exactly one record despite two playbooks). -/
theorem c9_no_destroy_witness :
    Event.teardownCleanup ∉
      [Event.runPlaybookCalled (some "192.168.122.58"),
       .reporterProcess "/var/artifacts/tests.yml/checkb/results.yml",
       .sentinelCreated "/var/artifacts/tests.yml/checkb/results.yml.reported_ok"] ∧
    (1 : Nat) = 0 + 1 := by
  have h := c9_no_destroy cfgNoDestroy [pbGood "tests.yml", pbGood "tests_2.yml"] rfl
  constructor
  · have := h.1
      ⟨"tests.yml", .ok, true, true,
        [.runPlaybookCalled (some "192.168.122.58"),
         .reporterProcess "/var/artifacts/tests.yml/checkb/results.yml",
         .sentinelCreated "/var/artifacts/tests.yml/checkb/results.yml.reported_ok"]⟩
      (by decide)
    exact this
  · have := h.2 true []
      [⟨"tests.yml", .ok, true, true,
        [.runPlaybookCalled (some "192.168.122.58"),
         .reporterProcess "/var/artifacts/tests.yml/checkb/results.yml",
         .sentinelCreated "/var/artifacts/tests.yml/checkb/results.yml.reported_ok"]⟩]
      (by decide) 0
      ⟨"tests.yml", .ok, true, true,
        [.runPlaybookCalled (some "192.168.122.58"),
         .reporterProcess "/var/artifacts/tests.yml/checkb/results.yml",
         .sentinelCreated "/var/artifacts/tests.yml/checkb/results.yml.reported_ok"]⟩
      (by decide) (by decide)
    exact this

/-- Claim C6, counterexample.  The claim says a missing results artifact
leads to a directive error, no reporter call, a failure record, *and*
the loop continuing with the next playbook.  Under `no-destroy` with a
spawned VM the first three hold but the loop halts: of two playbooks
only one is processed. -/
theorem c6_missing_results_counterexample :
    execute cfgNoDestroy [pbNoResults "tests.yml", pbGood "tests_2.yml"] =
      .finished false ["tests.yml"]
        [⟨"tests.yml",
          .raised (.checkbDirective
            (missing_results_msg (results_file_path "/var/artifacts" "tests.yml"))),
          true, true, [.runPlaybookCalled (some "192.168.122.58")]⟩] ∧
    [pbNoResults "tests.yml", pbGood "tests_2.yml"].length = 2 := by
  exact ⟨by decide, rfl⟩

/-- Claim C6, amended.  When the results artifact is absent after a
playbook run that itself returned successfully: `_report_results`
raises a `CheckbDirectiveError` whose message names the expected
results-file path and performs no reporter call; at the loop boundary
the playbook is recorded as failed and — unless the `no-destroy` early
exit applies (C9) — the loop continues with the next playbook. -/
theorem c6_missing_results (adir tp : String) (fs : String → Bool)
    (hmiss : fs (results_file_path adir tp) = false) :
    (report_results adir tp fs =
       .error (.checkbDirective (missing_results_msg (results_file_path adir tp))) ∧
     (∃ pre, missing_results_msg (results_file_path adir tp) =
        pre ++ results_file_path adir tp)) ∧
    (∀ (cfg : ExecCfg) (pbs : List PbScript) (b : Bool) (f : List String)
       (rs : List PbRecord), execute cfg pbs = .finished b f rs →
      ∀ (i : Nat) (r : PbRecord), rs[i]? = some r →
      ∀ m, r.res = .raised (.checkbDirective m) →
        r.name ∈ f ∧ (∀ rf, Event.reporterProcess rf ∉ r.events) ∧
        ((cfg.no_destroy = false ∨ r.vmActive = false) →
          i + 1 < pbs.length → i + 1 < rs.length)) := by
  constructor
  · constructor
    · rw [report_results_def, if_neg (by simp [hmiss])]
    · exact ⟨"Results file doesn\x27t exist, assuming the task crashed. If you wish " ++
        "to report no results, the results file still needs to exist - consult " ++
        "documentation. Expected results file location: ", rfl⟩
  · intro cfg pbs b f rs h i r hr m hres
    obtain ⟨hb, hf, hrs, hend⟩ := execute_finished_inv cfg pbs b f rs h
    subst hf
    subst hrs
    refine ⟨execGo_checkb_failed cfg pbs .noVm i r _ hr hres (by rfl), ?_, ?_⟩
    · intro rf hin
      have hmem : r ∈ (execGo cfg .noVm pbs).2.1 := by
        obtain ⟨hlt, heq⟩ := List.getElem?_eq_some.mp hr
        exact heq ▸ List.getElem_mem hlt
      obtain ⟨vmp, pb, hpb, hre⟩ := execGo_mem_records cfg pbs .noVm r hmem
      rw [hre] at hin hres
      have hres2 : (processPlaybook cfg vmp pb).res = .raised (.checkbDirective m) := by
        simpa using hres
      have hin2 : Event.reporterProcess rf ∈
          (processPlaybook cfg vmp pb).events ++
            (finallyClause (processPlaybook cfg vmp pb).vmAfter cfg.no_destroy
              (exceptClause (processPlaybook cfg vmp pb).res).1).2.1 := by
        simpa using hin
      rcases List.mem_append.mp hin2 with hh | hh
      · exact processPlaybook_no_reporter_unless_ok cfg vmp pb rf
          (by rw [hres2]; intro hcon; cases hcon) hh
      · rcases finallyClause_events_mem _ _ _ _ hh with h1 | h1 <;> simp at h1
    · intro hnd hlen
      exact execGo_checkb_continues_finished cfg pbs .noVm i r _ hend hr hres
        (by rfl) (by rfl) hnd hlen

/-- Witness for `c6_missing_results`: an absent results file yields the
directive error naming the path, and in local mode the failed playbook
does not stop the loop — both of the two playbooks are processed. -/
theorem c6_missing_results_witness :
    report_results "/var/artifacts" "tests.yml" (fun _ => false) =
      .error (.checkbDirective
        (missing_results_msg (results_file_path "/var/artifacts" "tests.yml"))) ∧
    "tests.yml" ∈ ["tests.yml"] ∧ 0 + 1 < 2 := by
  have h := c6_missing_results "/var/artifacts" "tests.yml" (fun _ => false) rfl
  have h2 := h.2 cfgLocal [pbNoResults "tests.yml", pbGood "tests_2.yml"]
    false ["tests.yml"]
    [⟨"tests.yml",
      .raised (.checkbDirective
        (missing_results_msg (results_file_path "/var/artifacts" "tests.yml"))),
      false, false, [.runPlaybookCalled (some "127.0.0.1")]⟩,
     ⟨"tests_2.yml", .ok, false, false,
      [.runPlaybookCalled (some "127.0.0.1"),
       .reporterProcess "/var/artifacts/tests_2.yml/checkb/results.yml",
       .sentinelCreated "/var/artifacts/tests_2.yml/checkb/results.yml.reported_ok"]⟩]
    (by decide) 0
    ⟨"tests.yml",
      .raised (.checkbDirective
        (missing_results_msg (results_file_path "/var/artifacts" "tests.yml"))),
      false, false, [.runPlaybookCalled (some "127.0.0.1")]⟩
    (by decide) (missing_results_msg (results_file_path "/var/artifacts" "tests.yml"))
    (by decide)
  exact ⟨h.1.1, h2.1, h2.2.2 (Or.inl rfl) (by decide)⟩

/-- Claim C10, confirmed.  The per-playbook handlers catch only the
`CheckbError` taxonomy.  A playbook file whose top-level YAML document
is empty makes `_load_playbook_vars` evaluate `None[0]`, raising
`TypeError`; such an exception is outside the taxonomy and escapes
`execute` entirely — the run aborts with no playbook recorded as
failed, instead of the failure being contained to that playbook. -/
theorem c10_non_taxonomy_escapes (cfg : ExecCfg) (pb : PbScript)
    (rest : List PbScript) (ex : PyExn)
    (hsyn : pb.synCheckOk = true)
    (hload : load_playbook_vars pb.yamlContent = .error ex) :
    load_playbook_vars Yaml.nullv = .error .typeError ∧
    (Exn.py ex).isCheckbError = false ∧
    execute cfg (pb :: rest) =
      .raised (.py ex) [] [⟨pb.name, .raised (.py ex), false, false, []⟩] := by
  refine ⟨rfl, rfl, ?_⟩
  have hstep : processPlaybook cfg .noVm pb = ⟨.raised (.py ex), .noVm, false, []⟩ := by
    simp [processPlaybook, hsyn, hload]
  simp only [execute, List.isEmpty_cons, Bool.false_eq_true, if_false]
  simp only [execGo, hstep]
  simp [exceptClause, finallyClause, Exn.isInterrupt, Exn.isCheckbError, VmState.isSet]

/-- Witness for `c10_non_taxonomy_escapes`: a playbook file whose YAML
content is the empty document aborts the whole run; the second playbook
is never processed and the escaping exception is the `TypeError`. -/
theorem c10_non_taxonomy_escapes_witness :
    load_playbook_vars Yaml.nullv = .error .typeError ∧
    (Exn.py .typeError).isCheckbError = false ∧
    execute cfgLocal [pbEmptyYaml "tests.yml", pbGood "tests_2.yml"] =
      .raised (.py .typeError) []
        [⟨"tests.yml", .raised (.py .typeError), false, false, []⟩] :=
  c10_non_taxonomy_escapes cfgLocal (pbEmptyYaml "tests.yml")
    [pbGood "tests_2.yml"] .typeError rfl rfl

/-! ### Claim theorems for the variable computation -/

/-- Under the TESTING profile with Vault disabled, `_get_vault_secrets`
reads no external state: it returns the empty secrets mapping and
leaves the temp-name generator untouched. -/
theorem get_vault_secrets_testing (cfg : VarsCfg) (td : String) (w : World)
    (hp : cfg.profile = .testing) (hv : cfg.vault_enabled = false) :
    get_vault_secrets cfg td w = (.inline [], w) := by
  simp [get_vault_secrets, hp, hv]

/-- Claim C8, counterexample.  The claim says two invocations of
`_create_playbook_vars` with identical request data, configuration and
playbook variables produce identical mappings, with no hidden global
state.  Under any profile other than TESTING, `_get_vault_secrets`
calls `tempfile.mkstemp`, whose fresh-name state is hidden global
state: running the same inputs twice in a row (the second call sees the
generator state the first call left behind) yields two different
`checkb_secrets_file` entries. -/
theorem c8_vars_not_deterministic_counterexample :
    (create_playbook_vars demoVarsCfg demoArgData false "tests.yml" genericTaskYaml
        ⟨none, none, 0⟩).map (fun p => (p.1.checkb_secrets_file, p.2.tmpCounter)) =
      .ok (.file "/tmp/checkb_secrets0", 1) ∧
    (create_playbook_vars demoVarsCfg demoArgData false "tests.yml" genericTaskYaml
        ⟨none, none, 1⟩).map (fun p => (p.1.checkb_secrets_file, p.2.tmpCounter)) =
      .ok (.file "/tmp/checkb_secrets1", 2) ∧
    SecretsRef.file "/tmp/checkb_secrets0" ≠ .file "/tmp/checkb_secrets1" := by
  refine ⟨rfl, rfl, by decide⟩

/-- Claim C8, amended.  `_create_playbook_vars` is deterministic except
for the `checkb_secrets_file` entry: under the TESTING profile with
Vault disabled the result is a function of the declared inputs alone
(two invocations at any two external-world states agree); otherwise
`checkb_secrets_file` is a freshly generated temp-file name drawn from
hidden generator state. -/
theorem c8_vars_deterministic_testing (cfg : VarsCfg) (arg : ArgData)
    (run_remotely : Bool) (tp : String) (y : Yaml) (w w2 : World)
    (hp : cfg.profile = .testing) (hv : cfg.vault_enabled = false) :
    (create_playbook_vars cfg arg run_remotely tp y w).map (fun p => p.1) =
    (create_playbook_vars cfg arg run_remotely tp y w2).map (fun p => p.1) := by
  unfold create_playbook_vars
  cases hld : load_playbook_vars y with
  | error e => rfl
  | ok loaded =>
    cases hba : binary_arches cfg.supported_arches with
    | none => rfl
    | some binarches =>
      rw [get_vault_secrets_testing cfg arg.taskdir w hp hv,
          get_vault_secrets_testing cfg arg.taskdir w2 hp hv]
      rfl

/-- Witness for `c8_vars_deterministic_testing`: the TESTING-profile
configuration at two different external-world states (temp counters 0
and 5) yields the same variable mapping. -/
theorem c8_vars_deterministic_testing_witness :
    (create_playbook_vars demoVarsCfgTesting demoArgData false "tests.yml"
        genericTaskYaml ⟨none, none, 0⟩).map (fun p => p.1) =
    (create_playbook_vars demoVarsCfgTesting demoArgData false "tests.yml"
        genericTaskYaml ⟨none, none, 5⟩).map (fun p => p.1) :=
  c8_vars_deterministic_testing demoVarsCfgTesting demoArgData false "tests.yml"
    genericTaskYaml ⟨none, none, 0⟩ ⟨none, none, 5⟩ rfl rfl

end Checkb
